import Mathlib

/-!
# Shallow embedding of the H.264 transcoder (`transcoder.h`, `transcoder.cpp`)

The class `Transcoder` drives libav (FFmpeg): it opens the input, opens the
output, configures two decoder/encoder pairs, writes the header, runs the
read / decode / encode / write loop and writes the trailer.

The libav calls are external.  Every value such a call returns is an input of
the model (a *script*), so that the theorems quantify over every possible
behaviour of the library; the control flow, the state of the `Transcoder`
object, the function-local `static` variables of `process_frames` and the
order of the library calls (the *trace*) are those of the C++ source.

Conventions
* `int`, `int64_t` are `Int`; the one product that can leave the 64-bit range
  (`stream->duration * frame_rate.num`) is wrapped with `wrap64`.  The two
  counters `next_pts++` and `processed_frames++` are not wrapped (they count
  frames of one process).
* A pointer is `Bool` (`true` = non-null) or `Option` of the pointee when the
  pointee's fields matter.
* `float` and `double` values are the rationals they denote.  Every
  floating-point operation of the progress block is the exact operation
  followed by IEEE-754 rounding to nearest, ties to even, to 24 bits (`float`)
  or 53 bits (`double`); division by zero is modelled explicitly
  (`clamped_progress`).  The exponent range is not modelled: for 64-bit
  operands every intermediate value of the progress block lies in the normal
  range of both formats.
-/

namespace Transcode

/-! ## Constants of the libav headers -/

def INT64_MIN : Int := -9223372036854775808
def INT64_MAX : Int := 9223372036854775807

/-- `AV_NOPTS_VALUE` is `((int64_t)UINT64_C(0x8000000000000000))`. -/
def AV_NOPTS_VALUE : Int := INT64_MIN

/-- `AV_TIME_BASE` of libavutil. -/
def AV_TIME_BASE : Int := 1000000

/-- `AVERROR(EAGAIN)` on Linux. -/
def AVERROR_EAGAIN : Int := -11

/-- `AVERROR_EOF`, that is `FFERRTAG('E','O','F',' ')`. -/
def AVERROR_EOF : Int := -541478725

/-- `AV_PIX_FMT_YUV420P`, planar YUV 4:2:0, is enumerator 0 of `AVPixelFormat`. -/
def AV_PIX_FMT_YUV420P : Int := 0

/-- `FF_PROFILE_H264_MAIN`. -/
def FF_PROFILE_H264_MAIN : Int := 77

/-- Two's complement reduction of an integer to `int64_t`. -/
def wrap64 (x : Int) : Int := (x + 9223372036854775808) % 18446744073709551616 - 9223372036854775808

/-- `AVRational` of libavutil: numerator and denominator (both `int`). -/
structure AVRational where
  num : Int
  den : Int
deriving DecidableEq, Repr

/-! ## `TranscoderParams` (transcoder.h) -/

/-- `struct TranscoderParams` with its default member initialisers. -/
structure TranscoderParams where
  bitrate : Int := 2000000
  profile : Int := FF_PROFILE_H264_MAIN
  level : Int := 41
  width : Int := 0
  height : Int := 0
  fps : Int := 0
deriving DecidableEq, Repr

/-! ## Timestamp rescaling (libavutil, as called by `process_frames`) -/

/-- Core of `av_rescale_rnd` for `a ≥ 0` with rounding `AV_ROUND_NEAR_INF`:
`(a * b + c / 2) / c`, and `INT64_MIN` when that is not representable. -/
def rescale_nonneg (a b c : Int) : Int :=
  let q := (a * b + c / 2) / c
  if q ≤ INT64_MAX then q else INT64_MIN

/-- External libavutil routine `av_rescale_rnd(a, b, c, rnd)` for the two
rounding arguments the source passes, `AV_ROUND_NEAR_INF` and
`AV_ROUND_NEAR_INF | AV_ROUND_PASS_MINMAX` (`pass_minmax`).  It is not part of
this repository; the definition follows the library's documented contract:
the result is `a * b / c` rounded to nearest with halfway cases away from
zero, `INT64_MIN` when `c ≤ 0`, `b < 0` or the result is not representable;
with `AV_ROUND_PASS_MINMAX`, `INT64_MIN` and `INT64_MAX` are returned
unchanged; a negative `a` is handled as `-(uint64_t)f(-FFMAX(a, -INT64_MAX))`. -/
def av_rescale_rnd (a b c : Int) (pass_minmax : Bool) : Int :=
  if c ≤ 0 ∨ b < 0 then INT64_MIN
  else if pass_minmax = true ∧ (a = INT64_MIN ∨ a = INT64_MAX) then a
  else if a < 0 then wrap64 (-(rescale_nonneg (-(max a (-INT64_MAX))) b c))
  else rescale_nonneg a b c

/-- `av_rescale_q_rnd(a, bq, cq, rnd)`: `b = bq.num * cq.den`,
`c = cq.num * bq.den`, then `av_rescale_rnd(a, b, c, rnd)`. -/
def av_rescale_q_rnd (a : Int) (bq cq : AVRational) (pass_minmax : Bool) : Int :=
  av_rescale_rnd a (bq.num * cq.den) (cq.num * bq.den) pass_minmax

/-- `av_rescale_q(a, bq, cq)` is `av_rescale_q_rnd` with `AV_ROUND_NEAR_INF`. -/
def av_rescale_q (a : Int) (bq cq : AVRational) : Int :=
  av_rescale_q_rnd a bq cq false

/-! ## Function-local statics of `process_frames` -/

/-- The five `static` locals of `process_frames`.  They belong to the process,
not to a `Transcoder` object.  `last_update = none` means that the declaration
has not been executed yet (its initialiser reads the clock once). -/
structure Statics where
  next_pts : Int := 0
  last_update : Option Int := none
  last_progress : ℚ := -1
  total_frames : Int := 0
  processed_frames : Int := 0

/-- Video pts conversion of `process_frames` (the `if (frame->pts !=
AV_NOPTS_VALUE)` statement): the new `frame->pts` and the new `next_pts`. -/
def video_frame_pts (pts : Int) (in_time_base enc_time_base : AVRational) (next_pts : Int) :
    Int × Int :=
  if pts ≠ AV_NOPTS_VALUE then
    (av_rescale_q_rnd pts in_time_base enc_time_base true, next_pts)
  else
    (next_pts, next_pts + 1)

/-- Audio pts conversion of `process_frames`: an unconditional `av_rescale_q`. -/
def audio_frame_pts (pts : Int) (in_time_base enc_time_base : AVRational) : Int :=
  av_rescale_q pts in_time_base enc_time_base

/-! ## IEEE-754 rounding -/

/-- The power `2 ^ e` as a rational, for any integer exponent. -/
def pow2 (e : Int) : ℚ :=
  if 0 ≤ e then ((2 ^ e.toNat : Nat) : ℚ) else 1 / ((2 ^ (-e).toNat : Nat) : ℚ)

/-- Binary logarithm with an explicit recursion bound. -/
def log2_fuel : Nat → Nat → Nat
  | 0, _ => 0
  | fuel + 1, n => if 2 ≤ n then log2_fuel fuel (n / 2) + 1 else 0

/-- The position of the leading bit of `n`: `2 ^ ilog2 n ≤ n < 2 ^ (ilog2 n + 1)`. -/
def ilog2 (n : Nat) : Nat := log2_fuel n n

/-- The binade of a positive rational: the greatest `e` with `2 ^ e ≤ x`. -/
def binade (x : ℚ) : Int :=
  if pow2 ((ilog2 x.num.natAbs : Int) - (ilog2 x.den : Int)) ≤ x then
    (ilog2 x.num.natAbs : Int) - (ilog2 x.den : Int)
  else (ilog2 x.num.natAbs : Int) - (ilog2 x.den : Int) - 1

/-- Round to the nearest integer, halfway cases to the even neighbour. -/
def round_half_even (y : ℚ) : Int :=
  if y - ⌊y⌋ < 1 / 2 then ⌊y⌋
  else if 1 / 2 < y - ⌊y⌋ then ⌊y⌋ + 1
  else if ⌊y⌋ % 2 = 0 then ⌊y⌋
  else ⌊y⌋ + 1

/-- Round a positive rational to `prec` significant bits: the significand
`x / 2 ^ (e - prec + 1)` of its binade `e` is rounded half to even. -/
def round_pos (prec : Nat) (x : ℚ) : ℚ :=
  (round_half_even (x / pow2 (binade x - prec + 1)) : ℚ) * pow2 (binade x - prec + 1)

/-- IEEE-754 round to nearest, ties to even, to `prec` significant bits. -/
def round_to (prec : Nat) (x : ℚ) : ℚ :=
  if x = 0 then 0 else if 0 < x then round_pos prec x else -round_pos prec (-x)

/-- Rounding to `double` (binary64, 53 significant bits). -/
def to_double (x : ℚ) : ℚ := round_to 53 x

/-- Rounding to `float` (binary32, 24 significant bits). -/
def to_float (x : ℚ) : ℚ := round_to 24 x

/-- The expression `(float)(processed_frames * 100.0 / total_frames)` for a
nonzero divisor: both integers are converted to `double`, the product and the
quotient are `double` operations, and the result is converted to `float`. -/
def percentage (processed_frames total_frames : Int) : ℚ :=
  to_float (to_double (to_double (to_double processed_frames * 100) / to_double total_frames))

/-! ## Progress accounting -/

/-- The value assigned to `total_frames` by the block `if (total_frames == 0)`:
`nb_frames` when positive, otherwise `(duration * num) / (den * AV_TIME_BASE)`
(C++ integer division, truncating) when the guessed frame rate is valid,
otherwise `1000`. -/
def estimate_total_frames (nb_frames duration : Int) (frame_rate : AVRational) : Int :=
  if nb_frames > 0 then nb_frames
  else if frame_rate.num > 0 ∧ frame_rate.den > 0 then
    Int.tdiv (wrap64 (duration * frame_rate.num)) (frame_rate.den * AV_TIME_BASE)
  else 1000

/-- The clamped percentage
`std::min(std::max((float)(processed_frames * 100.0 / total_frames), 0.0f), 100.0f)`.
A zero divisor follows IEEE-754: a positive dividend gives `+inf` (clamped to
`100`), a negative one `-inf` (clamped to `0`), and `0/0` is NaN, which
survives the clamp and makes every later comparison false (`none`). -/
def clamped_progress (processed_frames total_frames : Int) : Option ℚ :=
  if total_frames = 0 then
    if 0 < processed_frames then some 100
    else if processed_frames < 0 then some 0
    else none
  else some (min (max (percentage processed_frames total_frames) 0) 100)

/-! ## The library's answers: scripts -/

/-- What libav returns while one decoded frame is handled.  `receive_ret` is
the value of `avcodec_receive_frame`, `pts` the `frame->pts` it delivers,
`send_frame_ret` the value of `avcodec_send_frame`, and `packets` lists, for
each following call of `avcodec_receive_packet`, its return value and the
return value of the `av_interleaved_write_frame` after it.  When `packets` is
used up the encoder answers `AVERROR(EAGAIN)`. -/
structure FrameScript where
  receive_ret : Int
  pts : Int
  send_frame_ret : Int
  packets : List (Int × Int)
deriving DecidableEq, Repr

/-- What libav returns during one iteration of the read loop.  `read_ret` is
the value of `av_read_frame`, `stream_index` the `packet->stream_index`,
`send_packet_ret` the value of `avcodec_send_packet`, `frames` the answers of
the successive `avcodec_receive_frame` calls (then `AVERROR(EAGAIN)`), and
`clock_init`, `clock_now` the readings of `std::chrono::steady_clock::now()`
(in nanoseconds) for the initialiser of `last_update` and for `now`. -/
structure ReadScript where
  read_ret : Int
  stream_index : Int
  send_packet_ret : Int
  frames : List FrameScript
  clock_init : Int
  clock_now : Int
deriving DecidableEq, Repr

/-- Metadata of the selected input video stream. -/
structure VideoStreamInfo where
  width : Int
  height : Int
  sample_aspect_ratio : AVRational
  time_base : AVRational
  avg_frame_rate : AVRational
  nb_frames : Int
  duration : Int
  guessed_frame_rate : AVRational
deriving DecidableEq, Repr

/-- Metadata of the selected input audio stream. -/
structure AudioStreamInfo where
  time_base : AVRational
  sample_rate : Int
  channels : Int
  channel_layout : Int
deriving DecidableEq, Repr

/-- Everything the outside world contributes to one call of `transcode`. -/
structure Env where
  av_strerror : Int → String
  open_input_ret : Int
  find_stream_info_ret : Int
  best_video_stream : Int
  best_audio_stream : Int
  duration : Int
  video : VideoStreamInfo
  audio : AudioStreamInfo
  alloc_output_ret : Int
  avio_open_ret : Int
  globalheader : Bool
  new_video_stream_ok : Bool
  video_decoder_open_ret : Int
  video_encoder_open_ret : Int
  new_audio_stream_ok : Bool
  audio_decoder_open_ret : Int
  audio_encoder_open_ret : Int
  first_sample_fmt : Int
  write_header_ret : Int
  packets : List ReadScript

/-! ## Observable actions -/

inductive MediaKind where
  | video
  | audio
deriving DecidableEq, Repr

/-- One library call (or callback invocation) made by the transcoder.
`send_packet k eos` has `eos = true` for a null packet (end of stream
signalled to the decoder); `send_frame k pts` has `pts = none` for a null frame
(end of stream signalled to the encoder) and otherwise the `frame->pts` handed
to the encoder; `receive_frame k pts` has the `frame->pts` of the frame the
decoder delivered, and `pts = none` when it delivered none (negative result). -/
inductive Event where
  | open_input
  | find_stream_info
  | alloc_output
  | avio_open
  | write_header
  | read_frame (ret : Int)
  | send_packet (k : MediaKind) (eos : Bool)
  | receive_frame (k : MediaKind) (pts : Option Int)
  | send_frame (k : MediaKind) (pts : Option Int)
  | receive_packet (k : MediaKind)
  | write_frame (stream_index : Int)
  | progress (value : ℚ)
  | write_trailer
  | set_error (msg : String)
deriving DecidableEq

/-! ## The `Transcoder` object -/

/-- The fields of `video_encoder_ctx` assigned by `init_codec_contexts`. -/
structure VideoEncoderCtx where
  width : Int
  height : Int
  sample_aspect_ratio : AVRational
  pix_fmt : Int
  time_base : AVRational
  framerate : AVRational
  bit_rate : Int
  gop_size : Int
  max_b_frames : Int
  profile : Int
  level : Int
  global_header : Bool
deriving DecidableEq, Repr

/-- The fields of `audio_encoder_ctx` assigned by `init_codec_contexts`. -/
structure AudioEncoderCtx where
  sample_fmt : Int
  channel_layout : Int
  channels : Int
  sample_rate : Int
  time_base : AVRational
  global_header : Bool
deriving DecidableEq, Repr

/-- An `AVStream` of the output context, as far as the source assigns it.
`time_base` and the frame rates are `none` until assigned (the audio stream's
are never assigned by the source). -/
structure OutStream where
  index : Int
  time_base : Option AVRational
  r_frame_rate : Option AVRational
  avg_frame_rate : Option AVRational
deriving DecidableEq, Repr

/-- The output `AVFormatContext`: whether `pb` is open, and its streams. -/
structure OutputCtx where
  pb : Bool
  streams : List OutStream
deriving DecidableEq, Repr

/-- The data members of `class Transcoder` with their default initialisers. -/
structure Transcoder where
  input_ctx : Bool := false
  output_ctx : Option OutputCtx := none
  video_decoder_ctx : Bool := false
  video_encoder_ctx : Option VideoEncoderCtx := none
  video_stream_index : Int := -1
  out_video_stream_index : Int := -1
  audio_decoder_ctx : Bool := false
  audio_encoder_ctx : Option AudioEncoderCtx := none
  audio_stream_index : Int := -1
  out_audio_stream_index : Int := -1
  progress_callback : Bool := false
  total_duration : Int := 0
  current_params : TranscoderParams := {}
  last_error : String := ""
deriving DecidableEq

/-- A point of an execution: the object, the statics, and the calls so far. -/
structure Run where
  t : Transcoder
  s : Statics
  trace : List Event

/-- Record one call. -/
def Run.emit (r : Run) (e : Event) : Run :=
  { r with trace := r.trace ++ [e] }

/-- `Transcoder::setError`: store the message and print it. -/
def setError (r : Run) (error : String) : Run :=
  { r with t := { r.t with last_error := error }, trace := r.trace ++ [Event.set_error error] }

/-- `Transcoder::cleanup`: free and null the four codec contexts, the input
context and the output context. -/
def cleanup (r : Run) : Run :=
  { r with t := { r.t with
      video_decoder_ctx := false
      video_encoder_ctx := none
      audio_decoder_ctx := false
      audio_encoder_ctx := none
      input_ctx := false
      output_ctx := none } }

/-! ## Opening the input and the output -/

/-- `Transcoder::open_input`.  `avformat_open_input` leaves `input_ctx` null
when it fails. -/
def open_input (env : Env) (r : Run) : Bool × Run :=
  let r := { r with t := { r.t with input_ctx := false } }
  let r := r.emit Event.open_input
  if env.open_input_ret < 0 then
    (false, setError r ("无法打开输入文件: " ++ env.av_strerror env.open_input_ret))
  else
    let r := { r with t := { r.t with input_ctx := true } }
    let r := r.emit Event.find_stream_info
    if env.find_stream_info_ret < 0 then
      (false, setError r ("无法找到流信息: " ++ env.av_strerror env.find_stream_info_ret))
    else
      let r := { r with t := { r.t with
        video_stream_index := env.best_video_stream
        audio_stream_index := env.best_audio_stream } }
      if env.best_video_stream < 0 then
        (false, setError r "找不到视频流")
      else
        (true, r)

/-- `Transcoder::open_output`.  `avformat_alloc_output_context2` leaves
`output_ctx` null when it fails. -/
def open_output (env : Env) (r : Run) : Bool × Run :=
  let r := r.emit Event.alloc_output
  if env.alloc_output_ret < 0 then
    (false, setError { r with t := { r.t with output_ctx := none } }
      ("无法创建输出上下文: " ++ env.av_strerror env.alloc_output_ret))
  else
    let r := { r with t := { r.t with output_ctx := some { pb := false, streams := [] } } }
    let r := r.emit Event.avio_open
    if env.avio_open_ret < 0 then
      (false, setError r ("无法打开输出文件: " ++ env.av_strerror env.avio_open_ret))
    else
      (true, { r with t := { r.t with output_ctx := some { pb := true, streams := [] } } })

/-! ## Codec initialisation -/

/-- `avformat_new_stream`: append a stream; its index is the stream count. -/
def new_stream (o : OutputCtx) : OutputCtx :=
  { o with streams := o.streams ++
      [{ index := o.streams.length, time_base := none, r_frame_rate := none,
         avg_frame_rate := none }] }

/-- The three assignments `out_stream->time_base = ...`,
`out_stream->r_frame_rate = ...`, `out_stream->avg_frame_rate = ...`. -/
def set_stream_timing (o : OutputCtx) (index : Int) (time_base framerate : AVRational) :
    OutputCtx :=
  { o with streams := o.streams.map fun st =>
      if st.index = index then
        { st with time_base := some time_base, r_frame_rate := some framerate,
                  avg_frame_rate := some framerate }
      else st }

/-- The assignments to `video_encoder_ctx` in `init_codec_contexts`. -/
def video_encoder_settings (in_stream : VideoStreamInfo) (params : TranscoderParams)
    (globalheader : Bool) : VideoEncoderCtx :=
  let target_fps := if params.fps > 0 then params.fps else 30
  let framerate : AVRational := { num := target_fps, den := 1 }
  { height := if params.height > 0 then params.height else in_stream.height
    width := if params.width > 0 then params.width else in_stream.width
    sample_aspect_ratio := in_stream.sample_aspect_ratio
    pix_fmt := AV_PIX_FMT_YUV420P
    time_base := { num := 1, den := 90000 }
    framerate := framerate
    bit_rate := params.bitrate
    gop_size := framerate.num
    max_b_frames := 2
    profile := params.profile
    level := params.level
    global_header := globalheader }

/-- The assignments to `audio_encoder_ctx` in `init_codec_contexts`. -/
def audio_encoder_settings (in_stream : AudioStreamInfo) (first_sample_fmt : Int)
    (globalheader : Bool) : AudioEncoderCtx :=
  { sample_fmt := first_sample_fmt
    channel_layout := in_stream.channel_layout
    channels := in_stream.channels
    sample_rate := in_stream.sample_rate
    time_base := { num := 1, den := in_stream.sample_rate }
    global_header := globalheader }

/-- The video half of `init_codec_contexts` (the block
`if (video_stream_index >= 0)`).  The parameters are read through
`input_ctx->opaque`, which `open_input` pointed at `current_params`.  The
output context is non-null here; `getD` covers the null case, which the C++
would not survive. -/
def init_video (env : Env) (r : Run) : Bool × Run :=
  if ¬ env.new_video_stream_ok then
    (false, setError r "无法创建输出视频流")
  else
    let o := new_stream (r.t.output_ctx.getD { pb := false, streams := [] })
    let index : Int := (o.streams.length : Int) - 1
    let r := { r with t := { r.t with
      output_ctx := some o
      out_video_stream_index := index
      video_decoder_ctx := true } }
    if env.video_decoder_open_ret < 0 then
      (false, setError r "无法打开视频解码器")
    else
      let ctx := video_encoder_settings env.video r.t.current_params env.globalheader
      let r := { r with t := { r.t with
        video_encoder_ctx := some ctx
        output_ctx := some (set_stream_timing o index ctx.time_base ctx.framerate) } }
      if env.video_encoder_open_ret < 0 then
        (false, setError r "无法打开视频编码器")
      else
        (true, r)

/-- The audio half of `init_codec_contexts` (the block
`if (audio_stream_index >= 0)`). -/
def init_audio (env : Env) (r : Run) : Bool × Run :=
  if ¬ env.new_audio_stream_ok then
    (false, setError r "无法创建输出音频流")
  else
    let o := new_stream (r.t.output_ctx.getD { pb := false, streams := [] })
    let index : Int := (o.streams.length : Int) - 1
    let r := { r with t := { r.t with
      output_ctx := some o
      out_audio_stream_index := index
      audio_decoder_ctx := true } }
    if env.audio_decoder_open_ret < 0 then
      (false, setError r "无法打开音频解码器")
    else
      let ctx := audio_encoder_settings env.audio env.first_sample_fmt env.globalheader
      let r := { r with t := { r.t with audio_encoder_ctx := some ctx } }
      if env.audio_encoder_open_ret < 0 then
        (false, setError r "无法打开音频编码器")
      else
        (true, r)

/-- `Transcoder::init_codec_contexts`. -/
def init_codec_contexts (env : Env) (r : Run) : Bool × Run :=
  let v := if r.t.video_stream_index ≥ 0 then init_video env r else (true, r)
  if v.1 = false then v
  else if v.2.t.audio_stream_index ≥ 0 then init_audio env v.2
  else (true, v.2)

/-! ## The processing loop

The video branch and the audio branch of `process_frames` are the same code
up to the messages, the contexts and the pts conversion; the embedding has one
copy, indexed by `MediaKind`. -/

def msg_send_packet : MediaKind → String
  | .video => "发送视频包到解码器失败"
  | .audio => "发送音频包到解码器失败"

def msg_receive_frame : MediaKind → String
  | .video => "从解码器接收视频帧失败"
  | .audio => "从解码器接收音频帧失败"

def msg_send_frame : MediaKind → String
  | .video => "发送视频帧到编码器失败"
  | .audio => "发送音频帧到编码器失败"

def msg_receive_packet : MediaKind → String
  | .video => "从编码器接收视频包失败"
  | .audio => "从编码器接收音频包失败"

def msg_write_frame : MediaKind → String
  | .video => "写入视频帧失败"
  | .audio => "写入音频帧失败"

/-- `out_video_stream_index` or `out_audio_stream_index`. -/
def out_stream_index (k : MediaKind) (t : Transcoder) : Int :=
  match k with
  | .video => t.out_video_stream_index
  | .audio => t.out_audio_stream_index

/-- The innermost loop `while (ret >= 0) { ret = avcodec_receive_packet(...);
... ret = av_interleaved_write_frame(...); ... }`, entered with `ret >= 0`.
Returns the value of `ret` on exit. -/
def drain_encoder (k : MediaKind) : List (Int × Int) → Run → Int × Run
  | [], r => (AVERROR_EAGAIN, r.emit (Event.receive_packet k))
  | (recv, wr) :: rest, r =>
    let r := r.emit (Event.receive_packet k)
    if recv = AVERROR_EAGAIN ∨ recv = AVERROR_EOF then (recv, r)
    else if recv < 0 then (recv, setError r (msg_receive_packet k))
    else
      let r := r.emit (Event.write_frame (out_stream_index k r.t))
      if wr < 0 then (wr, setError r (msg_write_frame k))
      else drain_encoder k rest r

/-- The statement that converts `frame->pts`: the new pts and the run with
`next_pts` advanced when the video counter was used.  A null encoder context
(which the C++ would not survive) reads as time base `0/1`. -/
def convert_pts (k : MediaKind) (env : Env) (pts : Int) (r : Run) : Int × Run :=
  match k with
  | .video =>
    let enc_tb := (r.t.video_encoder_ctx.map (·.time_base)).getD { num := 0, den := 1 }
    let c := video_frame_pts pts env.video.time_base enc_tb r.s.next_pts
    (c.1, { r with s := { r.s with next_pts := c.2 } })
  | .audio =>
    let enc_tb := (r.t.audio_encoder_ctx.map (·.time_base)).getD { num := 0, den := 1 }
    (audio_frame_pts pts env.audio.time_base enc_tb, r)

/-- The loop `while (ret >= 0) { ret = avcodec_receive_frame(...); ... }`,
entered with `ret >= 0` after a successful `avcodec_send_packet`.  The loop
variable `ret` is shared with the inner loop, so the loop is left as soon as
the inner loop ends with a negative `ret`. -/
def frame_loop (k : MediaKind) (env : Env) : List FrameScript → Run → Run
  | [], r => r.emit (Event.receive_frame k none)
  | f :: rest, r =>
    let r := r.emit (Event.receive_frame k (if 0 ≤ f.receive_ret then some f.pts else none))
    if f.receive_ret = AVERROR_EAGAIN ∨ f.receive_ret = AVERROR_EOF then r
    else if f.receive_ret < 0 then setError r (msg_receive_frame k)
    else
      let c := convert_pts k env f.pts r
      let r := c.2.emit (Event.send_frame k (some c.1))
      if f.send_frame_ret < 0 then setError r (msg_send_frame k)
      else
        let d := drain_encoder k f.packets r
        if d.1 ≥ 0 then frame_loop k env rest d.2 else d.2

/-- The value of the static `total_frames` after the block
`if (total_frames == 0) { ... }`: unchanged when nonzero, else the estimate
from the metadata of the video stream. -/
def effective_total (env : Env) (s : Statics) : Int :=
  if s.total_frames = 0 then
    estimate_total_frames env.video.nb_frames env.video.duration env.video.guessed_frame_rate
  else s.total_frames

/-- The block `if (progress_callback) { ... }` at the end of the video
branch.  The test `progress - last_progress >= 0.1f || progress >= 99.9f` is
evaluated in `float`: the difference is rounded, and the literals are the
`float` values nearest to 1/10 and 999/10.  `elapsed` is the `duration_cast`
to milliseconds of a nanosecond difference. -/
def report_progress (env : Env) (p : ReadScript) (r : Run) : Run :=
  if r.t.progress_callback = true then
    let last_update := r.s.last_update.getD p.clock_init
    let total_frames := effective_total env r.s
    let processed_frames := r.s.processed_frames + 1
    let s : Statics := { r.s with
      last_update := some last_update
      total_frames := total_frames
      processed_frames := processed_frames }
    let elapsed := Int.tdiv (p.clock_now - last_update) 1000000
    if elapsed ≥ 100 then
      match clamped_progress processed_frames total_frames with
      | some progress =>
        if to_float (progress - s.last_progress) ≥ to_float (1 / 10) ∨
            progress ≥ to_float (999 / 10) then
          { r with
            s := { s with last_progress := progress, last_update := some p.clock_now }
            trace := r.trace ++ [Event.progress progress] }
        else { r with s := s }
      | none => { r with s := s }
    else { r with s := s }
  else r

/-- The loop `while (av_read_frame(input_ctx, packet) >= 0) { ... }`.  When the
script is used up the demuxer reports `AVERROR_EOF`. -/
def read_loop (env : Env) : List ReadScript → Run → Run
  | [], r => r.emit (Event.read_frame AVERROR_EOF)
  | p :: rest, r =>
    let r := r.emit (Event.read_frame p.read_ret)
    if p.read_ret < 0 then r
    else if p.stream_index = r.t.video_stream_index then
      let r := r.emit (Event.send_packet MediaKind.video false)
      if p.send_packet_ret < 0 then setError r (msg_send_packet MediaKind.video)
      else read_loop env rest (report_progress env p (frame_loop MediaKind.video env p.frames r))
    else if p.stream_index = r.t.audio_stream_index ∧ r.t.audio_encoder_ctx.isSome then
      let r := r.emit (Event.send_packet MediaKind.audio false)
      if p.send_packet_ret < 0 then setError r (msg_send_packet MediaKind.audio)
      else read_loop env rest (frame_loop MediaKind.audio env p.frames r)
    else read_loop env rest r

/-- `Transcoder::process_frames`: the read loop, the final
`progress_callback(100.0f)`, and `return true`. -/
def process_frames (env : Env) (r : Run) : Bool × Run :=
  let r := read_loop env env.packets r
  let r := if r.t.progress_callback = true then r.emit (Event.progress 100) else r
  (true, r)

/-! ## `transcode` -/

/-- `Transcoder::transcode`, run on object `t` with the statics `s`; the trace
of the result lists the calls of this one invocation. -/
def transcode (env : Env) (params : TranscoderParams) (progress_cb : Bool)
    (t : Transcoder) (s : Statics) : Bool × Run :=
  let r := cleanup { t := t, s := s, trace := [] }
  let r := { r with t := { r.t with progress_callback := progress_cb, current_params := params } }
  let i := open_input env r
  if i.1 = false then (false, i.2)
  else
    let r := { i.2 with t := { i.2.t with total_duration := env.duration } }
    let o := open_output env r
    if o.1 = false then (false, o.2)
    else
      let c := init_codec_contexts env o.2
      if c.1 = false then (false, c.2)
      else
        let r := c.2.emit Event.write_header
        if env.write_header_ret < 0 then
          (false, setError r ("无法写入输出文件头: " ++ env.av_strerror env.write_header_ret))
        else
          let f := process_frames env r
          if f.1 = false then (false, f.2)
          else (true, cleanup (f.2.emit Event.write_trailer))

/-! ## Observations on traces and states -/

/-- The argument of a progress callback invocation. -/
def Event.progress? : Event → Option ℚ
  | Event.progress v => some v
  | _ => none

/-- The values passed to the progress callback, in order. -/
def progress_values (trace : List Event) : List ℚ :=
  trace.filterMap Event.progress?

/-- The pts of a frame handed to the encoder of kind `k`. -/
def Event.encoder_pts? (k : MediaKind) : Event → Option Int
  | Event.send_frame k2 (some pts) => if k2 = k then some pts else none
  | _ => none

/-- The timestamps handed to the encoder of kind `k`, in order. -/
def encoder_pts (k : MediaKind) (trace : List Event) : List Int :=
  trace.filterMap (Event.encoder_pts? k)

/-- End of stream signalled to a decoder (null packet) or encoder (null frame). -/
def Event.is_eos : Event → Bool
  | Event.send_packet _ true => true
  | Event.send_frame _ none => true
  | _ => false

/-- Calls that create, open or write the output. -/
def Event.touches_output : Event → Bool
  | Event.alloc_output => true
  | Event.avio_open => true
  | Event.write_header => true
  | Event.write_frame _ => true
  | Event.write_trailer => true
  | _ => false

/-- The calls made inside the decode/encode loops of one packet. -/
def Event.is_codec_step : Event → Bool
  | Event.receive_frame _ _ => true
  | Event.send_frame _ (some _) => true
  | Event.receive_packet _ => true
  | Event.write_frame _ => true
  | Event.set_error _ => true
  | _ => false

/-- The input context, the output context and the four codec contexts are null. -/
def AllReleased (t : Transcoder) : Prop :=
  t.input_ctx = false ∧ t.output_ctx = none ∧ t.video_decoder_ctx = false ∧
  t.video_encoder_ctx = none ∧ t.audio_decoder_ctx = false ∧ t.audio_encoder_ctx = none

instance (t : Transcoder) : Decidable (AllReleased t) := by
  unfold AllReleased; infer_instance

/-! ## Sample inputs -/

/-- An input whose setup calls all succeed: a 1920x1080 video stream (index 0,
time base 1/180000, 25 fps, two frames reported) and an audio stream (index 1). -/
def env_ok (packets : List ReadScript) : Env :=
  { av_strerror := fun _ => "error"
    open_input_ret := 0
    find_stream_info_ret := 0
    best_video_stream := 0
    best_audio_stream := 1
    duration := 10000000
    video :=
      { width := 1920, height := 1080, sample_aspect_ratio := { num := 1, den := 1 }
        time_base := { num := 1, den := 180000 }, avg_frame_rate := { num := 25, den := 1 }
        nb_frames := 2, duration := 1800000, guessed_frame_rate := { num := 25, den := 1 } }
    audio := { time_base := { num := 1, den := 48000 }, sample_rate := 48000, channels := 2,
               channel_layout := 3 }
    alloc_output_ret := 0
    avio_open_ret := 0
    globalheader := true
    new_video_stream_ok := true
    video_decoder_open_ret := 0
    video_encoder_open_ret := 0
    new_audio_stream_ok := true
    audio_decoder_open_ret := 0
    audio_encoder_open_ret := 0
    first_sample_fmt := 8
    write_header_ret := 0
    packets := packets }

/-- A video packet: `avcodec_send_packet` returns `send_ret`; the decoder then
delivers one frame with the given pts, which the encoder turns into one packet
that is written; the clock reads `now` nanoseconds. -/
def video_packet (send_ret pts now : Int) : ReadScript :=
  { read_ret := 0, stream_index := 0, send_packet_ret := send_ret
    frames := [{ receive_ret := 0, pts := pts, send_frame_ret := 0, packets := [(0, 0)] }]
    clock_init := 0, clock_now := now }

/-- A video packet for which `avcodec_receive_frame` fails with `-1`. -/
def video_packet_decode_error : ReadScript :=
  { read_ret := 0, stream_index := 0, send_packet_ret := 0
    frames := [{ receive_ret := -1, pts := 0, send_frame_ret := 0, packets := [] }]
    clock_init := 0, clock_now := 0 }

/-- A video packet the decoder accepts and buffers: `avcodec_receive_frame`
answers `AVERROR(EAGAIN)`. -/
def video_packet_buffered : ReadScript :=
  { read_ret := 0, stream_index := 0, send_packet_ret := 0, frames := []
    clock_init := 0, clock_now := 0 }

/-! ## Relations between points of an execution -/

/-- The object with its error message blanked. -/
def Transcoder.clear_error (t : Transcoder) : Transcoder :=
  { t with last_error := "" }

/-- The statics with the synthetic pts counter blanked. -/
def Statics.clear_pts (s : Statics) : Statics :=
  { s with next_pts := 0 }

/-- The trace of `r2` is the trace of `r1` followed by calls that satisfy `Q`. -/
def Extends (Q : Event → Prop) (r1 r2 : Run) : Prop :=
  ∃ es, r2.trace = r1.trace ++ es ∧ ∀ e ∈ es, Q e

/-- From `r1` to `r2` only decode/encode steps happened: the object changed at
most in `last_error`, the statics at most in `next_pts`, and the trace grew by
codec steps. -/
def Inert (r1 r2 : Run) : Prop :=
  r2.t.clear_error = r1.t.clear_error ∧ r2.s.clear_pts = r1.s.clear_pts ∧
  Extends (fun e => e.is_codec_step = true) r1 r2

/-- Loop invariant of the progress accounting, for the divisor `T`: the values
reported so far are non-decreasing, lie in `[0, 100]`, and do not exceed any
percentage that a later frame count can produce. -/
def ProgressInv (env : Env) (T : Int) (r : Run) : Prop :=
  effective_total env r.s = T ∧ 0 ≤ r.s.processed_frames ∧
  (progress_values r.trace).Pairwise (· ≤ ·) ∧
  ∀ v ∈ progress_values r.trace, 0 ≤ v ∧ v ≤ 100 ∧
    ∀ q w, r.s.processed_frames < q → clamped_progress q T = some w → v ≤ w

/-- The calls made before the read loop starts. -/
def Event.is_setup_step : Event → Bool
  | Event.open_input => true
  | Event.find_stream_info => true
  | Event.alloc_output => true
  | Event.avio_open => true
  | Event.write_header => true
  | Event.set_error _ => true
  | _ => false

/-- The calls made by the read loop. -/
def Event.is_loop_step : Event → Bool
  | Event.read_frame _ => true
  | Event.send_packet _ false => true
  | Event.progress _ => true
  | e => e.is_codec_step

/-- From `r1` to `r2` only setup happened: the statics and the callback are
untouched and the trace grew by setup calls. -/
def SetupStep (r1 r2 : Run) : Prop :=
  r2.s = r1.s ∧ r2.t.progress_callback = r1.t.progress_callback ∧
  ∀ e ∈ r2.trace, e ∈ r1.trace ∨ e.is_setup_step = true

/-! ## The claims' wording, where it is compared with the code -/

/-- Encoder width/height as the claim words it: the parameter "if it is
nonzero", else the source value. -/
def spec_dimension (param source : Int) : Int :=
  if param ≠ 0 then param else source

/-- The entry of the output context's stream list that `init_codec_contexts`
leaves for the video stream with the given index, time base and frame rate. -/
def video_out_stream (index : Int) (ctx : VideoEncoderCtx) : OutStream :=
  { index := index, time_base := some ctx.time_base, r_frame_rate := some ctx.framerate,
    avg_frame_rate := some ctx.framerate }

/-- The run in which `transcode`, called on a new object in a new process,
calls `init_codec_contexts`: after `cleanup`, `open_input` and `open_output`. -/
def run_before_init (env : Env) (params : TranscoderParams) : Run :=
  let r := cleanup { t := {}, s := {}, trace := [] }
  let r := { r with t := { r.t with progress_callback := false, current_params := params } }
  let i := open_input env r
  (open_output env { i.2 with t := { i.2.t with total_duration := env.duration } }).2

/-- The calls after the read loop in a successful `transcode`: the final
`progress_callback(100.0f)` when a callback was supplied, and the trailer. -/
def final_calls (progress_cb : Bool) : List Event :=
  (if progress_cb = true then [Event.progress 100] else []) ++ [Event.write_trailer]

/-- Nearest integer to `x / d` (`d > 0`) with halfway cases away from zero:
`q` is within one half of `x / d`, and in the halfway case it is the candidate
of larger magnitude. -/
def nearest_half_away (x d q : Int) : Prop :=
  2 * |q * d - x| ≤ d ∧ (2 * |q * d - x| = d → |x| < |q * d|)

/-- The claim's rounding: `x / d` (`d > 0`) rounded to the nearest integer,
ties to the even neighbour. -/
def spec_round_half_even (x d : Int) : Int :=
  if 2 * (x % d) < d then x / d
  else if 2 * (x % d) > d then x / d + 1
  else if (x / d) % 2 = 0 then x / d
  else x / d + 1

/-- The claim's video timestamp: `t * n * 90000 / d` rounded half to even,
with `INT64_MIN` and `INT64_MAX` passed through. -/
def spec_video_pts (t n d : Int) : Int :=
  if t = INT64_MIN ∨ t = INT64_MAX then t else spec_round_half_even (t * n * 90000) d

/-- The sample input with a video stream that reports no frame count, a
duration of 1000 (stream time base units) and a guessed frame rate of 30/1. -/
def env_short (packets : List ReadScript) : Env :=
  { env_ok packets with
    video := { (env_ok packets).video with
      nb_frames := 0, duration := 1000, guessed_frame_rate := { num := 30, den := 1 } } }

/-- Two video frames without pts, read 100 ms and 200 ms after the start. -/
def two_untimed_frames : List ReadScript :=
  [video_packet 0 AV_NOPTS_VALUE 100000000, video_packet 0 AV_NOPTS_VALUE 200000000]

/-- The same two frames read by a later call, 1.1 s and 1.2 s after the start. -/
def two_untimed_frames_later : List ReadScript :=
  [video_packet 0 AV_NOPTS_VALUE 1100000000, video_packet 0 AV_NOPTS_VALUE 1200000000]

/-- An audio packet (stream 1 of the sample input): `avcodec_send_packet`
succeeds, the decoder delivers one frame with the given pts, and the encoder
turns it into one packet that is written. -/
def audio_packet (pts : Int) : ReadScript :=
  { read_ret := 0, stream_index := 1, send_packet_ret := 0
    frames := [{ receive_ret := 0, pts := pts, send_frame_ret := 0, packets := [(0, 0)] }]
    clock_init := 0, clock_now := 0 }

/-- Two audio frames without pts. -/
def two_untimed_audio_frames : List ReadScript :=
  [audio_packet AV_NOPTS_VALUE, audio_packet AV_NOPTS_VALUE]

/-- The decoder of the video stream delivered a frame. -/
def Event.delivers_video_frame : Event → Bool
  | Event.receive_frame MediaKind.video (some _) => true
  | _ => false

/-- In `trace`, every frame the video decoder delivers, with pts `t`, is
followed at once by the call that hands it to the video encoder, with a pts
`q` such that `Q t q`. -/
def HandsOver (Q : Int → Int → Prop) (trace : List Event) : Prop :=
  ∀ pre post t, trace = pre ++ Event.receive_frame MediaKind.video (some t) :: post →
    ∃ q post2, post = Event.send_frame MediaKind.video (some q) :: post2 ∧ Q t q

/-- What `process_frames` does to the pts `t` of a video frame that carries a
timestamp, for the encoder time base `enc_time_base`: the pts `q` handed to the
encoder is `av_rescale_q_rnd` of `t` from the stream's time base. -/
def timed_video_pts (env : Env) (enc_time_base : AVRational) (t q : Int) : Prop :=
  t ≠ AV_NOPTS_VALUE → q = av_rescale_q_rnd t env.video.time_base enc_time_base true

/-- The time base of the video encoder context, `0/1` for a null context. -/
def video_encoder_time_base (t : Transcoder) : AVRational :=
  (t.video_encoder_ctx.map (·.time_base)).getD { num := 0, den := 1 }

/-- The sample input with another time base for the video stream. -/
def env_time_base (time_base : AVRational) (packets : List ReadScript) : Env :=
  { env_ok packets with video := { (env_ok packets).video with time_base := time_base } }

/-- A video stream with 1000 frames reported, read in four packets 100 ms
apart. -/
def env_thousand_frames : Env :=
  { env_ok [video_packet 0 0 100000000, video_packet 0 1 200000000,
      video_packet 0 2 300000000, video_packet 0 3 400000000] with
    video := { (env_ok []).video with nb_frames := 1000 } }

/-! # Theorems -/

/-- C1 (evaluation at the failing inputs).  All setup steps succeed.  First
input: `avcodec_send_packet` fails on the first video packet; the error message
is stored, yet the trailer is written and `transcode` returns `true`.  Second
input: `avcodec_receive_frame` fails on the first packet; the message is
stored, the second packet is still read, decoded, encoded and written, the
trailer is written and `transcode` returns `true`. -/
theorem c1_loop_failure_not_aborted :
    ((transcode (env_ok [video_packet (-1) 7 0, video_packet 0 8 0]) {} false {} {}).1 = true ∧
      (transcode (env_ok [video_packet (-1) 7 0, video_packet 0 8 0]) {} false {} {}).2.t.last_error
        = "发送视频包到解码器失败" ∧
      Event.write_trailer ∈
        (transcode (env_ok [video_packet (-1) 7 0, video_packet 0 8 0]) {} false {} {}).2.trace) ∧
    ((transcode (env_ok [video_packet_decode_error, video_packet 0 8 0]) {} false {} {}).1 = true ∧
      Event.set_error "从解码器接收视频帧失败" ∈
        (transcode (env_ok [video_packet_decode_error, video_packet 0 8 0]) {} false {} {}).2.trace ∧
      (transcode (env_ok [video_packet_decode_error, video_packet 0 8 0]) {} false {} {}).2.trace.count
        (Event.read_frame 0) = 2 ∧
      Event.write_frame 0 ∈
        (transcode (env_ok [video_packet_decode_error, video_packet 0 8 0]) {} false {} {}).2.trace ∧
      Event.write_trailer ∈
        (transcode (env_ok [video_packet_decode_error, video_packet 0 8 0]) {} false {} {}).2.trace) := by
  decide

/-- C2.  When `avformat_open_input` fails, `avformat_find_stream_info` fails or
no video stream is found, `transcode` returns `false`, `last_error` is the
message of the failing step, the output context stays null and no call that
creates, opens or writes the output is made. -/
theorem c2_input_failure_reported (env : Env) (params : TranscoderParams) (progress_cb : Bool)
    (t : Transcoder) (s : Statics)
    (h : env.open_input_ret < 0 ∨ env.find_stream_info_ret < 0 ∨ env.best_video_stream < 0) :
    (transcode env params progress_cb t s).1 = false ∧
    (transcode env params progress_cb t s).2.t.last_error =
      (if env.open_input_ret < 0 then
        "无法打开输入文件: " ++ env.av_strerror env.open_input_ret
      else if env.find_stream_info_ret < 0 then
        "无法找到流信息: " ++ env.av_strerror env.find_stream_info_ret
      else "找不到视频流") ∧
    (transcode env params progress_cb t s).2.t.output_ctx = none ∧
    ∀ e ∈ (transcode env params progress_cb t s).2.trace, e.touches_output = false := by
  by_cases h1 : env.open_input_ret < 0
  · simp [transcode, open_input, setError, Run.emit, cleanup, h1, Event.touches_output]
  · by_cases h2 : env.find_stream_info_ret < 0
    · simp [transcode, open_input, setError, Run.emit, cleanup, h1, h2, Event.touches_output]
    · have h3 : env.best_video_stream < 0 := by tauto
      simp [transcode, open_input, setError, Run.emit, cleanup, h1, h2, h3, Event.touches_output]

/-- C2 applied to an input without a video stream (audio only). -/
theorem c2_input_failure_reported_witness :
    (transcode { env_ok [] with best_video_stream := -1 } {} true {} {}).1 = false ∧
    (transcode { env_ok [] with best_video_stream := -1 } {} true {} {}).2.t.last_error
      = "找不到视频流" :=
  ⟨(c2_input_failure_reported { env_ok [] with best_video_stream := -1 } {} true {} {}
      (by decide)).1,
   (c2_input_failure_reported { env_ok [] with best_video_stream := -1 } {} true {} {}
      (by decide)).2.1⟩

/-! ## Decode/encode steps are inert -/

theorem Extends.refl_ext (Q : Event → Prop) (r : Run) : Extends Q r r :=
  ⟨[], by simp, by simp⟩

theorem Extends.then_ext {Q : Event → Prop} {r1 r2 r3 : Run} (h12 : Extends Q r1 r2)
    (h23 : Extends Q r2 r3) : Extends Q r1 r3 := by
  obtain ⟨es, he, hq⟩ := h12
  obtain ⟨fs, hf, hq2⟩ := h23
  refine ⟨es ++ fs, by rw [hf, he, List.append_assoc], ?_⟩
  intro e hmem
  rcases List.mem_append.mp hmem with h | h
  · exact hq e h
  · exact hq2 e h

theorem Extends.mono {Q Q2 : Event → Prop} {r1 r2 : Run} (h : Extends Q r1 r2)
    (hq : ∀ e, Q e → Q2 e) : Extends Q2 r1 r2 := by
  obtain ⟨es, he, hes⟩ := h
  exact ⟨es, he, fun e hmem => hq e (hes e hmem)⟩

theorem extends_emit (Q : Event → Prop) (r : Run) (e : Event) (h : Q e) :
    Extends Q r (r.emit e) :=
  ⟨[e], rfl, by simpa using h⟩

theorem extends_setError (Q : Event → Prop) (r : Run) (msg : String)
    (h : Q (Event.set_error msg)) : Extends Q r (setError r msg) :=
  ⟨[Event.set_error msg], rfl, by simpa using h⟩

theorem Inert.refl_inert (r : Run) : Inert r r :=
  ⟨rfl, rfl, Extends.refl_ext _ r⟩

theorem Inert.then_inert {r1 r2 r3 : Run} (h12 : Inert r1 r2) (h23 : Inert r2 r3) : Inert r1 r3 :=
  ⟨h23.1.trans h12.1, h23.2.1.trans h12.2.1, h12.2.2.then_ext h23.2.2⟩

theorem inert_emit (r : Run) (e : Event) (h : e.is_codec_step = true) : Inert r (r.emit e) :=
  ⟨rfl, rfl, extends_emit _ r e h⟩

theorem inert_setError (r : Run) (msg : String) : Inert r (setError r msg) :=
  ⟨rfl, rfl, extends_setError _ r msg rfl⟩

theorem inert_drain_encoder (k : MediaKind) (l : List (Int × Int)) (r : Run) :
    Inert r (drain_encoder k l r).2 := by
  induction l generalizing r with
  | nil => exact inert_emit r _ rfl
  | cons a rest ih =>
    obtain ⟨recv, wr⟩ := a
    have h1 : Inert r (r.emit (Event.receive_packet k)) := inert_emit r _ rfl
    unfold drain_encoder
    simp only
    split_ifs
    · exact h1
    · exact h1.then_inert (inert_setError _ _)
    · exact (h1.then_inert (inert_emit _ (Event.write_frame _) rfl)).then_inert (inert_setError _ _)
    · exact (h1.then_inert (inert_emit _ (Event.write_frame _) rfl)).then_inert (ih _)

theorem inert_convert_pts (k : MediaKind) (env : Env) (pts : Int) (r : Run) :
    Inert r (convert_pts k env pts r).2 := by
  cases k
  · exact ⟨rfl, rfl, Extends.refl_ext _ r⟩
  · exact Inert.refl_inert r

theorem inert_frame_loop (k : MediaKind) (env : Env) (l : List FrameScript) (r : Run) :
    Inert r (frame_loop k env l r) := by
  induction l generalizing r with
  | nil => exact inert_emit r _ rfl
  | cons f rest ih =>
    have h1 : Inert r (r.emit (Event.receive_frame k
        (if 0 ≤ f.receive_ret then some f.pts else none))) := inert_emit r _ rfl
    have h2 := inert_convert_pts k env f.pts (r.emit (Event.receive_frame k
        (if 0 ≤ f.receive_ret then some f.pts else none)))
    have h3 := (h1.then_inert h2).then_inert (inert_emit _ (Event.send_frame k (some
        (convert_pts k env f.pts (r.emit (Event.receive_frame k
          (if 0 ≤ f.receive_ret then some f.pts else none)))).1)) rfl)
    unfold frame_loop
    simp only
    generalize (if 0 ≤ f.receive_ret then some f.pts else none) = delivered at h1 h2 h3 ⊢
    split_ifs
    · exact h1
    · exact h1.then_inert (inert_setError _ _)
    · exact h3.then_inert (inert_setError _ _)
    · exact (h3.then_inert (inert_drain_encoder _ _ _)).then_inert (ih _)
    · exact h3.then_inert (inert_drain_encoder _ _ _)

/-! ## IEEE-754 rounding is monotone -/

theorem log2_fuel_spec (fuel n : Nat) (hn : n ≠ 0) (hf : n ≤ fuel) :
    2 ^ log2_fuel fuel n ≤ n ∧ n < 2 ^ (log2_fuel fuel n + 1) := by
  induction fuel generalizing n with
  | zero => omega
  | succ fuel ih =>
    unfold log2_fuel
    by_cases h2 : 2 ≤ n
    · rw [if_pos h2]
      obtain ⟨h1, h3⟩ := ih (n / 2) (by omega) (by omega)
      constructor
      · rw [pow_succ]; omega
      · rw [pow_succ]; omega
    · rw [if_neg h2]
      have : n = 1 := by omega
      subst this
      simp

theorem ilog2_spec (n : Nat) (hn : n ≠ 0) : 2 ^ ilog2 n ≤ n ∧ n < 2 ^ (ilog2 n + 1) :=
  log2_fuel_spec n n hn (le_refl n)

theorem pow2_eq_zpow (e : Int) : pow2 e = (2 : ℚ) ^ e := by
  unfold pow2
  by_cases h : 0 ≤ e
  · rw [if_pos h]
    obtain ⟨n, rfl⟩ := Int.eq_ofNat_of_zero_le h
    simp
  · rw [if_neg h]
    obtain ⟨n, hn⟩ := Int.exists_eq_neg_ofNat (by omega : e ≤ 0)
    subst hn
    simp

theorem pow2_pos (e : Int) : 0 < pow2 e := by
  rw [pow2_eq_zpow]
  positivity

theorem pow2_add (a b : Int) : pow2 (a + b) = pow2 a * pow2 b := by
  simp only [pow2_eq_zpow]
  exact zpow_add₀ (by norm_num) a b

theorem pow2_le_iff (a b : Int) : pow2 a ≤ pow2 b ↔ a ≤ b := by
  simp only [pow2_eq_zpow]
  exact zpow_le_zpow_iff_right₀ (by norm_num)

theorem pow2_lt_iff (a b : Int) : pow2 a < pow2 b ↔ a < b := by
  simp only [pow2_eq_zpow]
  exact zpow_lt_zpow_iff_right₀ (by norm_num)

theorem pow2_natCast (n : Nat) : pow2 (n : Int) = ((2 ^ n : Nat) : ℚ) := by
  rw [pow2_eq_zpow]
  simp


theorem pow2_sub_one (e : Int) : pow2 (e - 1) = pow2 e / 2 := by
  simp only [pow2_eq_zpow]
  rw [zpow_sub_one₀ (by norm_num)]
  rfl

theorem pow2_add_one (e : Int) : pow2 (e + 1) = pow2 e * 2 := by
  simp only [pow2_eq_zpow]
  rw [zpow_add_one₀ (by norm_num)]

theorem binade_spec (x : ℚ) (hx : 0 < x) : pow2 (binade x) ≤ x ∧ x < pow2 (binade x + 1) := by
  have hnum : 0 < x.num := Rat.num_pos.mpr hx
  have hN : x.num.natAbs ≠ 0 := by omega
  have hD : x.den ≠ 0 := x.den_nz
  obtain ⟨ha1, ha2⟩ := ilog2_spec x.num.natAbs hN
  obtain ⟨hb1, hb2⟩ := ilog2_spec x.den hD
  have hxeq : x = (x.num.natAbs : ℚ) / (x.den : ℚ) := by
    have h1 : ((x.num.natAbs : Int) : ℚ) = (x.num : ℚ) := by
      rw [Int.natAbs_of_nonneg hnum.le]
    have h2 : ((x.num.natAbs : Int) : ℚ) = (x.num.natAbs : ℚ) := Int.cast_natCast _
    rw [← h2, h1]
    exact (Rat.num_div_den x).symm
  have hA1 : ((2 ^ ilog2 x.num.natAbs : Nat) : ℚ) ≤ (x.num.natAbs : ℚ) := by exact_mod_cast ha1
  have hA2 : (x.num.natAbs : ℚ) < ((2 ^ ilog2 x.num.natAbs : Nat) : ℚ) * 2 := by
    have : x.num.natAbs < 2 ^ ilog2 x.num.natAbs * 2 := by rw [← pow_succ]; exact ha2
    exact_mod_cast this
  have hB1 : ((2 ^ ilog2 x.den : Nat) : ℚ) ≤ (x.den : ℚ) := by exact_mod_cast hb1
  have hB2 : (x.den : ℚ) < ((2 ^ ilog2 x.den : Nat) : ℚ) * 2 := by
    have : x.den < 2 ^ ilog2 x.den * 2 := by rw [← pow_succ]; exact hb2
    exact_mod_cast this
  have hApos : (0 : ℚ) < ((2 ^ ilog2 x.num.natAbs : Nat) : ℚ) := by positivity
  have hBpos : (0 : ℚ) < ((2 ^ ilog2 x.den : Nat) : ℚ) := by positivity
  have hDpos : (0 : ℚ) < (x.den : ℚ) := by exact_mod_cast Nat.pos_of_ne_zero hD
  have hNpos : (0 : ℚ) < (x.num.natAbs : ℚ) := by exact_mod_cast Nat.pos_of_ne_zero hN
  have he0 : pow2 ((ilog2 x.num.natAbs : Int) - (ilog2 x.den : Int)) =
      ((2 ^ ilog2 x.num.natAbs : Nat) : ℚ) / ((2 ^ ilog2 x.den : Nat) : ℚ) := by
    rw [sub_eq_add_neg, pow2_add, pow2_natCast, pow2_eq_zpow, zpow_neg, ← pow2_eq_zpow,
      pow2_natCast]
    rfl
  -- the two strict bounds around the first guess
  have hup : x < pow2 ((ilog2 x.num.natAbs : Int) - (ilog2 x.den : Int) + 1) := by
    have key : (x.num.natAbs : ℚ) / (x.den : ℚ) <
        ((2 ^ ilog2 x.num.natAbs : Nat) : ℚ) * 2 / ((2 ^ ilog2 x.den : Nat) : ℚ) := by
      rw [div_lt_div_iff₀ hDpos hBpos]
      nlinarith
    rw [pow2_add_one, he0, div_mul_eq_mul_div]
    exact lt_of_eq_of_lt hxeq key
  have hlow : pow2 ((ilog2 x.num.natAbs : Int) - (ilog2 x.den : Int) - 1) < x := by
    have key : ((2 ^ ilog2 x.num.natAbs : Nat) : ℚ) / (((2 ^ ilog2 x.den : Nat) : ℚ) * 2) <
        (x.num.natAbs : ℚ) / (x.den : ℚ) := by
      rw [div_lt_div_iff₀ (by positivity) hDpos]
      nlinarith
    rw [pow2_sub_one, he0, div_div]
    exact lt_of_lt_of_eq key hxeq.symm
  unfold binade
  split_ifs with h
  · exact ⟨h, hup⟩
  · refine ⟨hlow.le, ?_⟩
    rw [sub_add_cancel]
    exact lt_of_not_le h

theorem binade_mono (x y : ℚ) (hx : 0 < x) (hxy : x ≤ y) : binade x ≤ binade y := by
  have h1 := (binade_spec x hx).1
  have h2 := (binade_spec y (lt_of_lt_of_le hx hxy)).2
  have h3 : pow2 (binade x) < pow2 (binade y + 1) := lt_of_le_of_lt (le_trans h1 hxy) h2
  have := (pow2_lt_iff _ _).mp h3
  omega


theorem floor_le_round_half_even (y : ℚ) : ⌊y⌋ ≤ round_half_even y := by
  unfold round_half_even
  split_ifs <;> omega

theorem round_half_even_le_floor_add_one (y : ℚ) : round_half_even y ≤ ⌊y⌋ + 1 := by
  unfold round_half_even
  split_ifs <;> omega

theorem le_round_half_even (a : Int) (y : ℚ) (h : (a : ℚ) ≤ y) : a ≤ round_half_even y :=
  le_trans (Int.le_floor.mpr h) (floor_le_round_half_even y)

theorem round_half_even_le (b : Int) (y : ℚ) (h : y ≤ (b : ℚ)) : round_half_even y ≤ b := by
  rcases eq_or_lt_of_le h with heq | hlt
  · subst heq
    unfold round_half_even
    simp
  · have : ⌊y⌋ < b := Int.floor_lt.mpr hlt
    have := round_half_even_le_floor_add_one y
    omega

theorem round_half_even_mono (y z : ℚ) (h : y ≤ z) : round_half_even y ≤ round_half_even z := by
  have hfl : ⌊y⌋ ≤ ⌊z⌋ := Int.floor_mono h
  rcases eq_or_lt_of_le hfl with heq | hlt
  · unfold round_half_even
    rw [heq]
    split_ifs <;> first | omega | (exfalso; linarith)
  · have h1 := round_half_even_le_floor_add_one y
    have h2 := floor_le_round_half_even z
    omega

theorem round_pos_bounds (prec : Nat) (hp : 1 ≤ prec) (x : ℚ) (hx : 0 < x) :
    pow2 (binade x) ≤ round_pos prec x ∧ round_pos prec x ≤ pow2 (binade x + 1) := by
  obtain ⟨hlo, hhi⟩ := binade_spec x hx
  have hu : 0 < pow2 (binade x - prec + 1) := pow2_pos _
  -- 2 ^ (prec - 1) and 2 ^ prec, as integers
  have e1 : pow2 (binade x) = (((2 ^ (prec - 1) : Nat) : Int) : ℚ) * pow2 (binade x - prec + 1) := by
    have : binade x = ((prec - 1 : Nat) : Int) + (binade x - prec + 1) := by omega
    conv_lhs => rw [this, pow2_add, pow2_natCast]
    push_cast
    rfl
  have e2 : pow2 (binade x + 1) = (((2 ^ prec : Nat) : Int) : ℚ) * pow2 (binade x - prec + 1) := by
    have : binade x + 1 = ((prec : Nat) : Int) + (binade x - prec + 1) := by omega
    conv_lhs => rw [this, pow2_add, pow2_natCast]
    push_cast
    rfl
  unfold round_pos
  constructor
  · rw [e1]
    apply mul_le_mul_of_nonneg_right _ hu.le
    have : (((2 ^ (prec - 1) : Nat) : Int) : ℚ) ≤ x / pow2 (binade x - prec + 1) := by
      rw [le_div_iff₀ hu, ← e1]
      exact hlo
    exact_mod_cast le_round_half_even _ _ this
  · rw [e2]
    apply mul_le_mul_of_nonneg_right _ hu.le
    have : x / pow2 (binade x - prec + 1) ≤ (((2 ^ prec : Nat) : Int) : ℚ) := by
      rw [div_le_iff₀ hu, ← e2]
      exact hhi.le
    exact_mod_cast round_half_even_le _ _ this

theorem round_pos_pos (prec : Nat) (hp : 1 ≤ prec) (x : ℚ) (hx : 0 < x) : 0 < round_pos prec x :=
  lt_of_lt_of_le (pow2_pos _) (round_pos_bounds prec hp x hx).1

theorem round_pos_mono (prec : Nat) (hp : 1 ≤ prec) (x y : ℚ) (hx : 0 < x) (hxy : x ≤ y) :
    round_pos prec x ≤ round_pos prec y := by
  have hy : 0 < y := lt_of_lt_of_le hx hxy
  have hb := binade_mono x y hx hxy
  rcases eq_or_lt_of_le hb with heq | hlt
  · unfold round_pos
    rw [heq]
    have hu : 0 < pow2 (binade y - prec + 1) := pow2_pos _
    apply mul_le_mul_of_nonneg_right _ hu.le
    have : x / pow2 (binade y - prec + 1) ≤ y / pow2 (binade y - prec + 1) :=
      div_le_div_of_nonneg_right hxy hu.le
    exact_mod_cast round_half_even_mono _ _ this
  · calc round_pos prec x ≤ pow2 (binade x + 1) := (round_pos_bounds prec hp x hx).2
      _ ≤ pow2 (binade y) := (pow2_le_iff _ _).mpr (by omega)
      _ ≤ round_pos prec y := (round_pos_bounds prec hp y hy).1

theorem round_to_pos (prec : Nat) (hp : 1 ≤ prec) (x : ℚ) (hx : 0 < x) : 0 < round_to prec x := by
  unfold round_to
  rw [if_neg hx.ne', if_pos hx]
  exact round_pos_pos prec hp x hx

theorem round_to_neg (prec : Nat) (hp : 1 ≤ prec) (x : ℚ) (hx : x < 0) : round_to prec x < 0 := by
  unfold round_to
  rw [if_neg hx.ne, if_neg (not_lt.mpr hx.le)]
  have := round_pos_pos prec hp (-x) (by linarith)
  linarith

theorem round_to_zero (prec : Nat) : round_to prec 0 = 0 := by
  simp [round_to]

theorem round_to_mono (prec : Nat) (hp : 1 ≤ prec) (x y : ℚ) (hxy : x ≤ y) :
    round_to prec x ≤ round_to prec y := by
  rcases lt_trichotomy x 0 with hx | hx | hx
  · rcases lt_trichotomy y 0 with hy | hy | hy
    · unfold round_to
      rw [if_neg hx.ne, if_neg (not_lt.mpr hx.le), if_neg hy.ne, if_neg (not_lt.mpr hy.le)]
      have := round_pos_mono prec hp (-y) (-x) (by linarith) (by linarith)
      linarith
    · rw [hy, round_to_zero]
      exact (round_to_neg prec hp x hx).le
    · exact le_trans (round_to_neg prec hp x hx).le (round_to_pos prec hp y hy).le
  · rw [hx, round_to_zero]
    rcases eq_or_lt_of_le (hx ▸ hxy : (0 : ℚ) ≤ y) with hy | hy
    · rw [← hy, round_to_zero]
    · exact (round_to_pos prec hp y hy).le
  · have hy : 0 < y := lt_of_lt_of_le hx hxy
    unfold round_to
    rw [if_neg hx.ne', if_pos hx, if_neg hy.ne', if_pos hy]
    exact round_pos_mono prec hp x y hx hxy

theorem to_double_mono (x y : ℚ) (h : x ≤ y) : to_double x ≤ to_double y :=
  round_to_mono 53 (by norm_num) x y h

theorem to_float_mono (x y : ℚ) (h : x ≤ y) : to_float x ≤ to_float y :=
  round_to_mono 24 (by norm_num) x y h

/-- For a positive divisor the percentage does not decrease with the frame
count: every operation in it is monotone. -/
theorem percentage_mono (p q T : Int) (hT : 0 < T) (hpq : p ≤ q) :
    percentage p T ≤ percentage q T := by
  have hT2 : 0 < to_double (T : ℚ) := round_to_pos 53 (by norm_num) _ (by exact_mod_cast hT)
  have h1 : to_double (p : ℚ) ≤ to_double (q : ℚ) := to_double_mono _ _ (by exact_mod_cast hpq)
  have h2 : to_double (to_double (p : ℚ) * 100) ≤ to_double (to_double (q : ℚ) * 100) :=
    to_double_mono _ _ (by linarith)
  exact to_float_mono _ _ (to_double_mono _ _ (div_le_div_of_nonneg_right h2 hT2.le))

/-- For a negative divisor and a positive frame count the percentage is
negative, so that it is clamped to 0. -/
theorem percentage_neg (p T : Int) (hT : T < 0) (hp : 0 < p) : percentage p T < 0 := by
  have hT2 : to_double (T : ℚ) < 0 := round_to_neg 53 (by norm_num) _ (by exact_mod_cast hT)
  have h1 : 0 < to_double (p : ℚ) := round_to_pos 53 (by norm_num) _ (by exact_mod_cast hp)
  have h2 : 0 < to_double (to_double (p : ℚ) * 100) :=
    round_to_pos 53 (by norm_num) _ (by linarith)
  have h3 : to_double (to_double (p : ℚ) * 100) / to_double (T : ℚ) < 0 :=
    div_neg_of_pos_of_neg h2 hT2
  exact round_to_neg 24 (by norm_num) _ (round_to_neg 53 (by norm_num) _ h3)

/-! ## Progress accounting: the loop invariant -/

theorem progress_values_append (l1 l2 : List Event) :
    progress_values (l1 ++ l2) = progress_values l1 ++ progress_values l2 := by
  simp [progress_values]

theorem progress_values_of_none (es : List Event) (h : ∀ e ∈ es, e.progress? = none) :
    progress_values es = [] := by
  simpa [progress_values, List.filterMap_eq_nil_iff] using h

theorem codec_step_not_progress (e : Event) (h : e.is_codec_step = true) : e.progress? = none := by
  cases e <;> simp_all [Event.is_codec_step, Event.progress?]

theorem clamped_progress_range (p T : Int) (v : ℚ) (h : clamped_progress p T = some v) :
    0 ≤ v ∧ v ≤ 100 := by
  unfold clamped_progress at h
  split_ifs at h <;> simp at h <;> subst h <;> norm_num

theorem clamped_progress_mono (p q T : Int) (v w : ℚ) (hp : 0 < p) (hpq : p ≤ q)
    (hv : clamped_progress p T = some v) (hw : clamped_progress q T = some w) : v ≤ w := by
  have hq : 0 < q := lt_of_lt_of_le hp hpq
  unfold clamped_progress at hv hw
  by_cases hT : T = 0
  · simp [hT, hp, hq] at hv hw
    rw [← hv, ← hw]
  · simp only [hT, if_false, Option.some.injEq] at hv hw
    subst hv
    subst hw
    rcases lt_or_gt_of_ne hT with hneg | hpos
    · rw [max_eq_right (percentage_neg p T hneg hp).le,
        max_eq_right (percentage_neg q T hneg hq).le]
    · exact min_le_min (max_le_max (percentage_mono p q T hpos hpq) le_rfl) le_rfl

theorem progressInv_of_inert (env : Env) (T : Int) (r1 r2 : Run) (h : Inert r1 r2)
    (hinv : ProgressInv env T r1) : ProgressInv env T r2 := by
  obtain ⟨_, hs, es, htr, hes⟩ := h
  have htot : r2.s.total_frames = r1.s.total_frames := by
    have h := congrArg Statics.total_frames hs
    exact h
  have hproc : r2.s.processed_frames = r1.s.processed_frames := by
    have h := congrArg Statics.processed_frames hs
    exact h
  have hpv : progress_values r2.trace = progress_values r1.trace := by
    rw [htr, progress_values_append,
      progress_values_of_none es (fun e he => codec_step_not_progress e (hes e he)),
      List.append_nil]
  unfold ProgressInv effective_total at *
  rw [hpv, htot, hproc]
  exact hinv

theorem progressInv_emit (env : Env) (T : Int) (r : Run) (e : Event) (he : e.progress? = none)
    (hinv : ProgressInv env T r) : ProgressInv env T (r.emit e) := by
  have hpv : progress_values (r.emit e).trace = progress_values r.trace := by
    show progress_values (r.trace ++ [e]) = _
    rw [progress_values_append, progress_values_of_none [e] (by simpa using he),
      List.append_nil]
  unfold ProgressInv at *
  rw [hpv]
  exact hinv

theorem progressInv_setError (env : Env) (T : Int) (r : Run) (msg : String)
    (hinv : ProgressInv env T r) : ProgressInv env T (setError r msg) :=
  progressInv_emit env T r (Event.set_error msg) rfl hinv

theorem progressInv_report_progress (env : Env) (T : Int) (p : ReadScript) (r : Run)
    (hinv : ProgressInv env T r) : ProgressInv env T (report_progress env p r) := by
  obtain ⟨hT, hproc, hpw, hall⟩ := hinv
  have hT2 : effective_total env
      { r.s with
        last_update := some (r.s.last_update.getD p.clock_init)
        total_frames := effective_total env r.s
        processed_frames := r.s.processed_frames + 1 } = T := by
    rw [hT]
    unfold effective_total at hT ⊢
    by_cases h0 : r.s.total_frames = 0
    · rw [if_pos h0] at hT
      by_cases h1 : T = 0
      · rw [if_pos h1, hT, h1]
      · rw [if_neg h1]
    · rw [if_neg h0] at hT
      rw [if_neg (by rw [← hT]; exact h0)]
  -- the state after the counters were updated and nothing was reported
  have hquiet : ProgressInv env T { r with s :=
      { r.s with
        last_update := some (r.s.last_update.getD p.clock_init)
        total_frames := effective_total env r.s
        processed_frames := r.s.processed_frames + 1 } } := by
    refine ⟨hT2, by show 0 ≤ r.s.processed_frames + 1; omega, hpw, ?_⟩
    intro v hv
    obtain ⟨h0, h100, hlater⟩ := hall v hv
    refine ⟨h0, h100, ?_⟩
    intro q w hq hw
    exact hlater q w (by have : r.s.processed_frames + 1 < q := hq; omega) hw
  unfold report_progress
  by_cases hcb : r.t.progress_callback = true
  · simp only [hcb, if_true]
    split_ifs with helapsed
    · split
      · rename_i progress hcp
        have hcp2 : clamped_progress (r.s.processed_frames + 1) T = some progress := by
          rw [← hT]; exact hcp
        split_ifs
        · refine ⟨?_, by show 0 ≤ r.s.processed_frames + 1; omega, ?_, ?_⟩
          · exact hT2
          · show (progress_values (r.trace ++ [Event.progress progress])).Pairwise (· ≤ ·)
            rw [progress_values_append]
            refine List.pairwise_append.mpr ⟨hpw, by simp [progress_values, Event.progress?], ?_⟩
            intro a ha b hb
            have hb2 : b = progress := by
              simpa [progress_values, Event.progress?] using hb
            rw [hb2]
            exact (hall a ha).2.2 _ _ (by omega) hcp2
          · intro v hv
            have hv2 : v ∈ progress_values r.trace ∨ v = progress := by
              have : v ∈ progress_values (r.trace ++ [Event.progress progress]) := hv
              rw [progress_values_append] at this
              simpa [progress_values, Event.progress?] using this
            rcases hv2 with hold | hnew
            · obtain ⟨h0, h100, hlater⟩ := hall v hold
              refine ⟨h0, h100, ?_⟩
              intro q w hq hw
              exact hlater q w (by have : r.s.processed_frames + 1 < q := hq; omega) hw
            · subst hnew
              obtain ⟨h0, h100⟩ := clamped_progress_range _ _ _ hcp2
              refine ⟨h0, h100, ?_⟩
              intro q w hq hw
              have hq2 : r.s.processed_frames + 1 < q := hq
              exact clamped_progress_mono _ q T _ w (by omega) (by omega) hcp2 hw
        · exact hquiet
      · exact hquiet
    · exact hquiet
  · simp only [hcb]
    exact ⟨hT, hproc, hpw, hall⟩

theorem progressInv_read_loop (env : Env) (T : Int) (ps : List ReadScript) (r : Run)
    (hinv : ProgressInv env T r) : ProgressInv env T (read_loop env ps r) := by
  induction ps generalizing r with
  | nil => exact progressInv_emit env T r _ rfl hinv
  | cons p rest ih =>
    have h1 := progressInv_emit env T r (Event.read_frame p.read_ret) rfl hinv
    unfold read_loop
    simp only
    split_ifs
    · exact h1
    · exact progressInv_setError env T _ _ (progressInv_emit env T _ _ rfl h1)
    · refine ih _ (progressInv_report_progress env T p _ ?_)
      exact progressInv_of_inert env T _ _ (inert_frame_loop _ env p.frames _)
        (progressInv_emit env T _ (Event.send_packet MediaKind.video false) rfl h1)
    · exact progressInv_setError env T _ _ (progressInv_emit env T _ _ rfl h1)
    · refine ih _ ?_
      exact progressInv_of_inert env T _ _ (inert_frame_loop _ env p.frames _)
        (progressInv_emit env T _ (Event.send_packet MediaKind.audio false) rfl h1)
    · exact ih _ h1

/-! ## The object and the trace across the read loop -/

theorem report_progress_object (env : Env) (p : ReadScript) (r : Run) :
    (report_progress env p r).t = r.t := by
  unfold report_progress
  simp only
  split_ifs
  · split
    · split_ifs <;> rfl
    · rfl
  · rfl
  · rfl

theorem report_progress_extends (env : Env) (p : ReadScript) (r : Run) :
    Extends (fun e => e.is_loop_step = true) r (report_progress env p r) := by
  unfold report_progress
  simp only
  split_ifs
  · split
    · split_ifs
      · exact ⟨[Event.progress _], rfl, by simp [Event.is_loop_step]⟩
      · exact ⟨[], by simp, by simp⟩
    · exact ⟨[], by simp, by simp⟩
  · exact ⟨[], by simp, by simp⟩
  · exact ⟨[], by simp, by simp⟩

theorem codec_step_is_loop_step (e : Event) (h : e.is_codec_step = true) :
    e.is_loop_step = true := by
  cases e <;> simp_all [Event.is_codec_step, Event.is_loop_step]

theorem read_loop_object (env : Env) (ps : List ReadScript) (r : Run) :
    (read_loop env ps r).t.clear_error = r.t.clear_error := by
  induction ps generalizing r with
  | nil => rfl
  | cons p rest ih =>
    have hv := (inert_frame_loop MediaKind.video env p.frames
      ((r.emit (Event.read_frame p.read_ret)).emit (Event.send_packet MediaKind.video false))).1
    have ha := (inert_frame_loop MediaKind.audio env p.frames
      ((r.emit (Event.read_frame p.read_ret)).emit (Event.send_packet MediaKind.audio false))).1
    unfold read_loop
    simp only
    split_ifs
    · rfl
    · rfl
    · rw [ih, report_progress_object, hv]; rfl
    · rfl
    · rw [ih, ha]; rfl
    · rw [ih]; rfl

theorem read_loop_extends (env : Env) (ps : List ReadScript) (r : Run) :
    Extends (fun e => e.is_loop_step = true) r (read_loop env ps r) := by
  induction ps generalizing r with
  | nil => exact extends_emit _ r _ rfl
  | cons p rest ih =>
    have h1 : Extends (fun e => e.is_loop_step = true) r (r.emit (Event.read_frame p.read_ret)) :=
      extends_emit _ r _ rfl
    have hf : ∀ k r0, Extends (fun e => e.is_loop_step = true) r0 (frame_loop k env p.frames r0) :=
      fun k r0 => (inert_frame_loop k env p.frames r0).2.2.mono codec_step_is_loop_step
    unfold read_loop
    simp only
    split_ifs
    · exact h1
    · exact (h1.then_ext (extends_emit _ _ (Event.send_packet MediaKind.video false) rfl)).then_ext
        (extends_setError _ _ _ rfl)
    · exact (((h1.then_ext (extends_emit _ _ (Event.send_packet MediaKind.video false) rfl)).then_ext
        (hf _ _)).then_ext (report_progress_extends env p _)).then_ext (ih _)
    · exact (h1.then_ext (extends_emit _ _ (Event.send_packet MediaKind.audio false) rfl)).then_ext
        (extends_setError _ _ _ rfl)
    · exact ((h1.then_ext (extends_emit _ _ (Event.send_packet MediaKind.audio false) rfl)).then_ext
        (hf _ _)).then_ext (ih _)
    · exact h1.then_ext (ih _)

/-! ## Setup steps -/

theorem SetupStep.refl_setup (r : Run) : SetupStep r r :=
  ⟨rfl, rfl, fun _ he => Or.inl he⟩

theorem SetupStep.then_setup {r1 r2 r3 : Run} (h12 : SetupStep r1 r2) (h23 : SetupStep r2 r3) :
    SetupStep r1 r3 := by
  refine ⟨h23.1.trans h12.1, h23.2.1.trans h12.2.1, ?_⟩
  intro e he
  rcases h23.2.2 e he with h | h
  · exact h12.2.2 e h
  · exact Or.inr h

theorem setupStep_open_input (env : Env) (r : Run) : SetupStep r (open_input env r).2 := by
  unfold open_input
  simp only
  split_ifs <;> refine ⟨rfl, rfl, ?_⟩ <;>
    simp +contextual [setError, Run.emit, Event.is_setup_step, or_imp, forall_and]

theorem setupStep_open_output (env : Env) (r : Run) : SetupStep r (open_output env r).2 := by
  unfold open_output
  simp only
  split_ifs <;> refine ⟨rfl, rfl, ?_⟩ <;>
    simp +contextual [setError, Run.emit, Event.is_setup_step, or_imp, forall_and]

theorem setupStep_init_video (env : Env) (r : Run) : SetupStep r (init_video env r).2 := by
  unfold init_video
  simp only
  split_ifs <;> refine ⟨rfl, rfl, ?_⟩ <;>
    simp +contextual [setError, Run.emit, Event.is_setup_step, or_imp, forall_and]

theorem setupStep_init_audio (env : Env) (r : Run) : SetupStep r (init_audio env r).2 := by
  unfold init_audio
  simp only
  split_ifs <;> refine ⟨rfl, rfl, ?_⟩ <;>
    simp +contextual [setError, Run.emit, Event.is_setup_step, or_imp, forall_and]

theorem setupStep_init_codec_contexts (env : Env) (r : Run) :
    SetupStep r (init_codec_contexts env r).2 := by
  have hv : SetupStep r (if r.t.video_stream_index ≥ 0 then init_video env r else (true, r)).2 := by
    split_ifs
    · exact setupStep_init_video env r
    · exact SetupStep.refl_setup r
  unfold init_codec_contexts
  simp only
  generalize (if r.t.video_stream_index ≥ 0 then init_video env r else (true, r)) = v at hv ⊢
  split_ifs
  · exact hv
  · exact hv.then_setup (setupStep_init_audio env _)
  · exact hv

/-- The setup phase of `transcode`, from the run `r1` it starts in. -/
theorem setupStep_until_header (env : Env) (r1 : Run) :
    SetupStep r1 ((init_codec_contexts env (open_output env
      { (open_input env r1).2 with
        t := { (open_input env r1).2.t with total_duration := env.duration } }).2).2.emit
      Event.write_header) := by
  have h1 := setupStep_open_input env r1
  have h2 : SetupStep (open_input env r1).2
      { (open_input env r1).2 with
        t := { (open_input env r1).2.t with total_duration := env.duration } } :=
    ⟨rfl, rfl, fun _ he => Or.inl he⟩
  have h3 := setupStep_open_output env
      { (open_input env r1).2 with
        t := { (open_input env r1).2.t with total_duration := env.duration } }
  have h4 := setupStep_init_codec_contexts env (open_output env
      { (open_input env r1).2 with
        t := { (open_input env r1).2.t with total_duration := env.duration } }).2
  have h5 : SetupStep (init_codec_contexts env (open_output env
      { (open_input env r1).2 with
        t := { (open_input env r1).2.t with total_duration := env.duration } }).2).2
      ((init_codec_contexts env (open_output env
      { (open_input env r1).2 with
        t := { (open_input env r1).2.t with total_duration := env.duration } }).2).2.emit
      Event.write_header) := by
    refine ⟨rfl, rfl, ?_⟩
    simp +contextual [Run.emit, Event.is_setup_step, or_imp, forall_and]
  exact (((h1.then_setup h2).then_setup h3).then_setup h4).then_setup h5

theorem open_input_true_index (env : Env) (r : Run) (h : (open_input env r).1 = true) :
    0 ≤ (open_input env r).2.t.video_stream_index := by
  unfold open_input at h ⊢
  simp only at h ⊢
  split_ifs at h ⊢
  show 0 ≤ env.best_video_stream
  omega

theorem open_output_index (env : Env) (r : Run) :
    (open_output env r).2.t.video_stream_index = r.t.video_stream_index := by
  unfold open_output
  simp only
  split_ifs <;> rfl

theorem init_video_true (env : Env) (r : Run) (h : (init_video env r).1 = true) :
    (init_video env r).2.t.video_encoder_ctx =
      some (video_encoder_settings env.video r.t.current_params env.globalheader) := by
  unfold init_video at h ⊢
  simp only at h ⊢
  split_ifs at h ⊢
  rfl

theorem init_audio_video_ctx (env : Env) (r : Run) :
    (init_audio env r).2.t.video_encoder_ctx = r.t.video_encoder_ctx := by
  unfold init_audio
  simp only
  split_ifs <;> rfl

/-- After a successful `init_codec_contexts` for an input with a video stream,
the video encoder context exists and its time base is `1/90000`. -/
theorem init_codec_contexts_true_time_base (env : Env) (r : Run)
    (h : (init_codec_contexts env r).1 = true) (hv : 0 ≤ r.t.video_stream_index) :
    video_encoder_time_base (init_codec_contexts env r).2.t = { num := 1, den := 90000 } := by
  unfold init_codec_contexts at h ⊢
  simp only [ge_iff_le, hv, if_true] at h ⊢
  by_cases hvid : (init_video env r).1 = true
  · have hctx := init_video_true env r hvid
    have hne : ¬ (init_video env r).1 = false := by simp [hvid]
    rw [if_neg hne] at h ⊢
    split_ifs
    · unfold video_encoder_time_base
      rw [init_audio_video_ctx, hctx]
      rfl
    · unfold video_encoder_time_base
      show ((init_video env r).2.t.video_encoder_ctx.map (·.time_base)).getD _ = _
      rw [hctx]
      rfl
  · have hf : (init_video env r).1 = false := by simpa using hvid
    rw [if_pos hf] at h
    rw [hf] at h
    exact absurd h (by simp)

/-- Shape of a successful `transcode`: setup up to the written header, then
`process_frames`, the trailer and `cleanup`.  When the read loop starts the
video encoder is configured with time base `1/90000`. -/
theorem transcode_success_shape (env : Env) (params : TranscoderParams) (progress_cb : Bool)
    (t : Transcoder) (s : Statics) (h : (transcode env params progress_cb t s).1 = true) :
    ∃ r0 : Run, r0.s = s ∧ r0.t.progress_callback = progress_cb ∧
      (∀ e ∈ r0.trace, e.is_setup_step = true) ∧
      video_encoder_time_base r0.t = { num := 1, den := 90000 } ∧
      (transcode env params progress_cb t s).2 =
        cleanup ((process_frames env r0).2.emit Event.write_trailer) := by
  have key := setupStep_until_header env
    { (cleanup { t := t, s := s, trace := [] }) with
      t := { (cleanup { t := t, s := s, trace := [] }).t with
        progress_callback := progress_cb, current_params := params } }
  have hidx := open_input_true_index env
    { (cleanup { t := t, s := s, trace := [] }) with
      t := { (cleanup { t := t, s := s, trace := [] }).t with
        progress_callback := progress_cb, current_params := params } }
  unfold transcode at h ⊢
  simp only at h ⊢
  split_ifs at h ⊢ with c1 c2 c3 c4 c5
  refine ⟨_, key.1, key.2.1, ?_, ?_, rfl⟩
  · intro e he
    rcases key.2.2 e he with h | h
    · exact absurd h (by simp [cleanup])
    · exact h
  · refine init_codec_contexts_true_time_base env _ (by simpa using c3) ?_
    rw [open_output_index]
    exact hidx (by simpa using c1)

theorem setup_step_not_progress (e : Event) (h : e.is_setup_step = true) :
    e.progress? = none := by
  cases e <;> simp_all [Event.is_setup_step, Event.progress?]

/-- The trace of a successful `transcode`: the setup calls and the read loop,
then the final calls. -/
theorem transcode_success_trace (env : Env) (params : TranscoderParams) (progress_cb : Bool)
    (t : Transcoder) (s : Statics) (h : (transcode env params progress_cb t s).1 = true) :
    ∃ r0 : Run, r0.s = s ∧ (∀ e ∈ r0.trace, e.is_setup_step = true) ∧
      (transcode env params progress_cb t s).2.trace =
        (read_loop env env.packets r0).trace ++ final_calls progress_cb ∧
      (transcode env params progress_cb t s).2.s = (read_loop env env.packets r0).s := by
  obtain ⟨r0, hs0, hcb, hsetup, _, hshape⟩ := transcode_success_shape env params progress_cb t s h
  have hcb2 : (read_loop env env.packets r0).t.progress_callback = progress_cb := by
    have h1 := congrArg Transcoder.progress_callback (read_loop_object env env.packets r0)
    exact h1.trans hcb
  refine ⟨r0, hs0, hsetup, ?_, ?_⟩
  · rw [hshape]
    cases progress_cb <;> simp [cleanup, process_frames, hcb2, Run.emit, final_calls]
  · rw [hshape]
    cases progress_cb <;> simp [cleanup, process_frames, hcb2, Run.emit]

/-- `process_frames` has no failing path: its result is always `true`. -/
theorem process_frames_returns_true (env : Env) (r : Run) : (process_frames env r).1 = true :=
  rfl

/-- A failing `transcode` leaves the statics as it found them. -/
theorem transcode_failure_statics (env : Env) (params : TranscoderParams) (progress_cb : Bool)
    (t : Transcoder) (s : Statics) (h : (transcode env params progress_cb t s).1 = false) :
    (transcode env params progress_cb t s).2.s = s := by
  have a1 := setupStep_open_input env
    { (cleanup { t := t, s := s, trace := [] }) with
      t := { (cleanup { t := t, s := s, trace := [] }).t with
        progress_callback := progress_cb, current_params := params } }
  have a2 := setupStep_open_output env
    { (open_input env
        { (cleanup { t := t, s := s, trace := [] }) with
          t := { (cleanup { t := t, s := s, trace := [] }).t with
            progress_callback := progress_cb, current_params := params } }).2 with
      t := { (open_input env
        { (cleanup { t := t, s := s, trace := [] }) with
          t := { (cleanup { t := t, s := s, trace := [] }).t with
            progress_callback := progress_cb, current_params := params } }).2.t with
        total_duration := env.duration } }
  have a3 := setupStep_init_codec_contexts env (open_output env
    { (open_input env
        { (cleanup { t := t, s := s, trace := [] }) with
          t := { (cleanup { t := t, s := s, trace := [] }).t with
            progress_callback := progress_cb, current_params := params } }).2 with
      t := { (open_input env
        { (cleanup { t := t, s := s, trace := [] }) with
          t := { (cleanup { t := t, s := s, trace := [] }).t with
            progress_callback := progress_cb, current_params := params } }).2.t with
        total_duration := env.duration } }).2
  unfold transcode at h ⊢
  simp only at h ⊢
  split_ifs at h ⊢
  · exact a1.1
  · exact a2.1.trans a1.1
  · exact a3.1.trans (a2.1.trans a1.1)
  · exact a3.1.trans (a2.1.trans a1.1)
  · rename_i hpf
    exact absurd hpf (by simp [process_frames])

/-- The frame counter never becomes negative: every call of `transcode`,
successful or not, with or without a callback, keeps `processed_frames ≥ 0`. -/
theorem transcode_processed_frames_nonneg (env : Env) (params : TranscoderParams)
    (progress_cb : Bool) (t : Transcoder) (s : Statics) (hs : 0 ≤ s.processed_frames) :
    0 ≤ (transcode env params progress_cb t s).2.s.processed_frames := by
  by_cases hok : (transcode env params progress_cb t s).1 = true
  · obtain ⟨r0, hs0, hsetup, _, hstat⟩ := transcode_success_trace env params progress_cb t s hok
    have hpv0 : progress_values r0.trace = [] :=
      progress_values_of_none _ (fun e he => setup_step_not_progress e (hsetup e he))
    have hinv0 : ProgressInv env (effective_total env s) r0 := by
      refine ⟨by rw [hs0], by rw [hs0]; exact hs, ?_, ?_⟩
      · rw [hpv0]; exact List.Pairwise.nil
      · intro v hv
        rw [hpv0] at hv
        exact absurd hv (List.not_mem_nil v)
    rw [hstat]
    exact (progressInv_read_loop env _ env.packets r0 hinv0).2.1
  · rw [transcode_failure_statics env params progress_cb t s (by simpa using hok)]
    exact hs

/-- C3.  In every successful `transcode` with a progress callback, whatever the
packets, the library's answers and the clock readings, and whatever the
statics left by earlier calls (their frame counter is never negative), the
values passed to the callback, computed and tested in `float` arithmetic as
in the source, are non-decreasing, lie in `[0, 100]`, there is at least one,
and the last one is exactly `100`.  The frame counter is again non-negative
afterwards. -/
theorem c3_progress_sequence (env : Env) (params : TranscoderParams) (t : Transcoder)
    (s : Statics) (hs : 0 ≤ s.processed_frames)
    (hok : (transcode env params true t s).1 = true) :
    (progress_values (transcode env params true t s).2.trace).Pairwise (· ≤ ·) ∧
    (∀ v ∈ progress_values (transcode env params true t s).2.trace, 0 ≤ v ∧ v ≤ 100) ∧
    progress_values (transcode env params true t s).2.trace ≠ [] ∧
    (progress_values (transcode env params true t s).2.trace).getLast? = some 100 ∧
    0 ≤ (transcode env params true t s).2.s.processed_frames := by
  obtain ⟨r0, hs0, hsetup, htrace, hstat⟩ := transcode_success_trace env params true t s hok
  have hpv0 : progress_values r0.trace = [] :=
    progress_values_of_none _ (fun e he => setup_step_not_progress e (hsetup e he))
  have hinv0 : ProgressInv env (effective_total env s) r0 := by
    refine ⟨by rw [hs0], by rw [hs0]; exact hs, ?_, ?_⟩
    · rw [hpv0]; exact List.Pairwise.nil
    · intro v hv
      rw [hpv0] at hv
      exact absurd hv (List.not_mem_nil v)
  obtain ⟨_, hproc, hpw, hall⟩ := progressInv_read_loop env _ env.packets r0 hinv0
  have hvals : progress_values (transcode env params true t s).2.trace =
      progress_values (read_loop env env.packets r0).trace ++ [100] := by
    rw [htrace]
    simp [progress_values_append, progress_values, Event.progress?, final_calls]
  rw [hvals, hstat]
  refine ⟨?_, ?_, by simp, by simp, hproc⟩
  · refine List.pairwise_append.mpr ⟨hpw, by simp, ?_⟩
    intro a ha b hb
    have hb2 : b = 100 := by simpa using hb
    rw [hb2]
    exact (hall a ha).2.1
  · intro v hv
    rcases List.mem_append.mp hv with h | h
    · exact ⟨(hall v h).1, (hall v h).2.1⟩
    · have hv2 : v = 100 := by simpa using h
      rw [hv2]
      norm_num

/-- C3 applied to a run of two video frames read 100 ms and 200 ms after the
start: the callback receives 50, 100 and the final 100. -/
theorem c3_progress_sequence_witness :
    (transcode (env_ok [video_packet 0 0 100000000, video_packet 0 1 200000000]) {} true {} {}).1
      = true ∧
    (progress_values (transcode (env_ok [video_packet 0 0 100000000,
      video_packet 0 1 200000000]) {} true {} {}).2.trace).Pairwise (· ≤ ·) ∧
    (progress_values (transcode (env_ok [video_packet 0 0 100000000,
      video_packet 0 1 200000000]) {} true {} {}).2.trace).getLast? = some 100 :=
  ⟨by decide,
   (c3_progress_sequence (env_ok [video_packet 0 0 100000000, video_packet 0 1 200000000])
      {} {} {} (by decide) (by decide)).1,
   (c3_progress_sequence (env_ok [video_packet 0 0 100000000, video_packet 0 1 200000000])
      {} {} {} (by decide) (by decide)).2.2.2.1⟩

/-! ## Codec initialisation -/

theorem init_video_result (env : Env) (r : Run) (hns : env.new_video_stream_ok = true)
    (hdec : env.video_decoder_open_ret ≥ 0) :
    (init_video env r).2.t.video_encoder_ctx =
      some (video_encoder_settings env.video r.t.current_params env.globalheader) ∧
    ∃ o, (init_video env r).2.t.output_ctx = some o ∧
      video_out_stream (init_video env r).2.t.out_video_stream_index
        (video_encoder_settings env.video r.t.current_params env.globalheader) ∈ o.streams := by
  have hdec2 : ¬ env.video_decoder_open_ret < 0 := by omega
  unfold init_video
  simp only [hns, not_true_eq_false, if_false, hdec2]
  split_ifs <;>
    simp [setError, set_stream_timing, new_stream, video_out_stream]

theorem init_audio_keeps_video (env : Env) (r : Run) (o : OutputCtx) (st : OutStream)
    (ho : r.t.output_ctx = some o) (hst : st ∈ o.streams) :
    (init_audio env r).2.t.video_encoder_ctx = r.t.video_encoder_ctx ∧
    (init_audio env r).2.t.out_video_stream_index = r.t.out_video_stream_index ∧
    ∃ o2, (init_audio env r).2.t.output_ctx = some o2 ∧ st ∈ o2.streams := by
  unfold init_audio
  simp only
  split_ifs <;> simp [setError, new_stream, ho, hst]

/-- C4 (as amended: "positive" for "nonzero").  Whenever `init_codec_contexts`
reaches the configuration of the video encoder (a video stream was selected,
the output stream was created and the decoder opened), the encoder context has
width and height equal to the parameter when it is positive and to the source
value otherwise, pixel format planar YUV 4:2:0, frame rate `fps/1` when
`fps > 0` and `30/1` otherwise, time base `1/90000`, GOP size equal to the
frame rate, two B-frames at most, and bitrate, profile and level of the
parameters; the output video stream has the encoder's time base and frame
rate. -/
theorem c4_video_encoder_settings (env : Env) (r : Run)
    (hv : r.t.video_stream_index ≥ 0) (hns : env.new_video_stream_ok = true)
    (hdec : env.video_decoder_open_ret ≥ 0) :
    ∃ ctx : VideoEncoderCtx, (init_codec_contexts env r).2.t.video_encoder_ctx = some ctx ∧
      ctx.width = (if r.t.current_params.width > 0 then r.t.current_params.width
        else env.video.width) ∧
      ctx.height = (if r.t.current_params.height > 0 then r.t.current_params.height
        else env.video.height) ∧
      ctx.pix_fmt = AV_PIX_FMT_YUV420P ∧
      ctx.framerate = { num := if r.t.current_params.fps > 0 then r.t.current_params.fps else 30,
                        den := 1 } ∧
      ctx.time_base = { num := 1, den := 90000 } ∧
      ctx.gop_size = ctx.framerate.num ∧
      ctx.max_b_frames = 2 ∧
      ctx.bit_rate = r.t.current_params.bitrate ∧
      ctx.profile = r.t.current_params.profile ∧
      ctx.level = r.t.current_params.level ∧
      ∃ o st, (init_codec_contexts env r).2.t.output_ctx = some o ∧ st ∈ o.streams ∧
        st.index = (init_codec_contexts env r).2.t.out_video_stream_index ∧
        st.time_base = some ctx.time_base ∧
        st.r_frame_rate = some ctx.framerate ∧
        st.avg_frame_rate = some ctx.framerate := by
  obtain ⟨hctx, o, ho, hst⟩ := init_video_result env r hns hdec
  refine ⟨video_encoder_settings env.video r.t.current_params env.globalheader, ?_,
    rfl, rfl, rfl, rfl, rfl, rfl, rfl, rfl, rfl, rfl, ?_⟩
  · unfold init_codec_contexts
    simp only [hv, if_true]
    split_ifs
    · exact hctx
    · rw [(init_audio_keeps_video env _ o _ ho hst).1]; exact hctx
    · exact hctx
  · unfold init_codec_contexts
    simp only [hv, if_true]
    split_ifs
    · exact ⟨o, _, ho, hst, rfl, rfl, rfl, rfl⟩
    · obtain ⟨_, hidx, o2, ho2, hst2⟩ := init_audio_keeps_video env _ o _ ho hst
      refine ⟨o2, _, ho2, hst2, ?_, rfl, rfl, rfl⟩
      rw [hidx]
      rfl
    · exact ⟨o, _, ho, hst, rfl, rfl, rfl, rfl⟩

/-- C4 applied to the sample input with 1280x720 at 24 fps requested. -/
theorem c4_video_encoder_settings_witness :
    ∃ ctx : VideoEncoderCtx,
      (init_codec_contexts (env_ok [])
        (run_before_init (env_ok []) { width := 1280, height := 720, fps := 24 })).2.t.video_encoder_ctx
        = some ctx ∧
      ctx.width = 1280 ∧ ctx.height = 720 ∧ ctx.framerate = { num := 24, den := 1 } := by
  obtain ⟨ctx, h1, h2, h3, _, h5, _⟩ := c4_video_encoder_settings (env_ok [])
    (run_before_init (env_ok []) { width := 1280, height := 720, fps := 24 }) (by decide) (by decide)
    (by decide)
  exact ⟨ctx, h1, h2, h3, h5⟩

/-- C4 as stated fails for a negative width: with `params.width = -1` and a
source 1920 wide the encoder gets width 1920, while "`params.width` if it is
nonzero, else the source width" is `-1`. -/
theorem c4_negative_width_counterexample :
    (init_codec_contexts (env_ok [])
        (run_before_init (env_ok []) { width := -1 })).2.t.video_encoder_ctx.map (·.width)
      = some 1920 ∧
    (init_codec_contexts (env_ok [])
        (run_before_init (env_ok []) { width := -1 })).2.t.video_encoder_ctx.map (·.width)
      ≠ some (spec_dimension (-1) (env_ok []).video.width) := by
  decide

/-- C5 (evaluation at the failing input).  With `params.fps = 0` and a source
stream at 25 fps, the encoder and the output stream are configured with 30/1. -/
theorem c5_fps_zero_gives_30 :
    (env_ok []).video.avg_frame_rate = { num := 25, den := 1 } ∧
    (init_codec_contexts (env_ok [])
        (run_before_init (env_ok []) { fps := 0 })).2.t.video_encoder_ctx.map (·.framerate)
      = some { num := 30, den := 1 } ∧
    (init_codec_contexts (env_ok [])
        (run_before_init (env_ok []) { fps := 0 })).2.t.output_ctx.map (fun o => o.streams.map (·.r_frame_rate))
      = some [some { num := 30, den := 1 }, none] := by
  decide

/-- On the path that returns `true`, `cleanup` runs before the return: the
input context, the output context and the four codec contexts are null. -/
theorem transcode_releases_on_success (env : Env) (params : TranscoderParams)
    (progress_cb : Bool) (t : Transcoder) (s : Statics)
    (h : (transcode env params progress_cb t s).1 = true) :
    AllReleased (transcode env params progress_cb t s).2.t := by
  obtain ⟨r0, _, _, _, _, hshape⟩ := transcode_success_shape env params progress_cb t s h
  rw [hshape]
  simp [AllReleased, cleanup]

/-- C6 (evaluation at the failing inputs).  When `avformat_find_stream_info`
fails, `transcode` returns `false` with the input context still open; when
`avio_open` fails, it returns `false` with the input and output contexts still
allocated; when the video encoder cannot be opened, it returns `false` with
the input context, the output context, the video decoder context and the video
encoder context still allocated. -/
theorem c6_failure_keeps_contexts :
    ((transcode { env_ok [] with find_stream_info_ret := -1 } {} false {} {}).1 = false ∧
      (transcode { env_ok [] with find_stream_info_ret := -1 } {} false {} {}).2.t.input_ctx = true ∧
      ¬ AllReleased (transcode { env_ok [] with find_stream_info_ret := -1 } {} false {} {}).2.t) ∧
    ((transcode { env_ok [] with avio_open_ret := -1 } {} false {} {}).1 = false ∧
      (transcode { env_ok [] with avio_open_ret := -1 } {} false {} {}).2.t.input_ctx = true ∧
      (transcode { env_ok [] with avio_open_ret := -1 } {} false {} {}).2.t.output_ctx.isSome = true ∧
      ¬ AllReleased (transcode { env_ok [] with avio_open_ret := -1 } {} false {} {}).2.t) ∧
    ((transcode { env_ok [] with video_encoder_open_ret := -1 } {} false {} {}).1 = false ∧
      (transcode { env_ok [] with video_encoder_open_ret := -1 } {} false {} {}).2.t.input_ctx
        = true ∧
      (transcode { env_ok [] with video_encoder_open_ret := -1 } {} false {} {}).2.t.output_ctx.isSome
        = true ∧
      (transcode { env_ok [] with video_encoder_open_ret := -1 } {} false {} {}).2.t.video_decoder_ctx
        = true ∧
      (transcode { env_ok [] with video_encoder_open_ret := -1 } {} false {}
        {}).2.t.video_encoder_ctx.isSome = true) := by
  decide

/-- C7 (evaluation at the failing input).  The same input (two video frames
without pts, 2 frames reported) is transcoded twice in one process, each time
on a new `Transcoder`.  The first call reports 50, 100, 100 and hands the pts
0, 1 to the encoder.  The second call, with the same clock readings, reports
only the final 100 and hands over 2, 3; with clock readings one second later
it reports 100, 100, 100. -/
theorem c7_statics_leak_between_calls :
    progress_values (transcode (env_ok two_untimed_frames) {} true {} {}).2.trace
      = [50, 100, 100] ∧
    encoder_pts MediaKind.video (transcode (env_ok two_untimed_frames) {} true {} {}).2.trace
      = [0, 1] ∧
    progress_values (transcode (env_ok two_untimed_frames) {} true {}
        (transcode (env_ok two_untimed_frames) {} true {} {}).2.s).2.trace
      = [100] ∧
    encoder_pts MediaKind.video (transcode (env_ok two_untimed_frames) {} true {}
        (transcode (env_ok two_untimed_frames) {} true {} {}).2.s).2.trace
      = [2, 3] ∧
    progress_values (transcode (env_ok two_untimed_frames_later) {} true {}
        (transcode (env_ok two_untimed_frames) {} true {} {}).2.s).2.trace
      = [100, 100, 100] := by
  decide!

/-- C8 as stated fails: nothing is flushed.  The decoder accepts the only
video packet and answers `AVERROR(EAGAIN)` (the frame stays buffered); the
transcode succeeds, yet end of stream is signalled neither to the video
decoder nor to the video encoder, and no packet is written. -/
theorem c8_no_flush_counterexample :
    (transcode (env_ok [video_packet_buffered]) {} false {} {}).1 = true ∧
    Event.send_packet MediaKind.video true ∉
      (transcode (env_ok [video_packet_buffered]) {} false {} {}).2.trace ∧
    Event.send_frame MediaKind.video none ∉
      (transcode (env_ok [video_packet_buffered]) {} false {} {}).2.trace ∧
    (transcode (env_ok [video_packet_buffered]) {} false {} {}).2.trace.filter
        Event.touches_output
      = [Event.alloc_output, Event.avio_open, Event.write_header, Event.write_trailer] := by
  decide

theorem setup_step_not_eos (e : Event) (h : e.is_setup_step = true) : e.is_eos = false := by
  cases e <;> simp_all [Event.is_setup_step, Event.is_eos]

theorem loop_step_not_eos (e : Event) (h : e.is_loop_step = true) : e.is_eos = false := by
  cases e with
  | send_packet k eos => cases eos <;> simp_all [Event.is_loop_step, Event.is_eos, Event.is_codec_step]
  | send_frame k pts => cases pts <;> simp_all [Event.is_loop_step, Event.is_eos, Event.is_codec_step]
  | _ => simp_all [Event.is_loop_step, Event.is_eos, Event.is_codec_step]

/-- C8 (as amended: no flush).  In every successful `transcode`, end of stream
is never signalled to a decoder or an encoder, and the calls of the read loop
over the input's packets are followed only by the final progress callback
(when a callback was supplied) and the writing of the trailer. -/
theorem c8_read_loop_then_trailer (env : Env) (params : TranscoderParams) (progress_cb : Bool)
    (t : Transcoder) (s : Statics) (h : (transcode env params progress_cb t s).1 = true) :
    (∀ e ∈ (transcode env params progress_cb t s).2.trace, e.is_eos = false) ∧
    ∃ r0 : Run, (∀ e ∈ r0.trace, e.is_setup_step = true) ∧
      (transcode env params progress_cb t s).2.trace =
        (read_loop env env.packets r0).trace ++ final_calls progress_cb := by
  obtain ⟨r0, _, hsetup, htrace, _⟩ := transcode_success_trace env params progress_cb t s h
  refine ⟨?_, r0, hsetup, htrace⟩
  obtain ⟨es, hes, hloop⟩ := read_loop_extends env env.packets r0
  intro e he
  rw [htrace, hes] at he
  rcases List.mem_append.mp he with h1 | h1
  · rcases List.mem_append.mp h1 with h2 | h2
    · exact setup_step_not_eos e (hsetup e h2)
    · exact loop_step_not_eos e (hloop e h2)
  · cases progress_cb <;> simp [final_calls] at h1 <;> rcases h1 with rfl | rfl <;> rfl

/-- C8 applied to the run in which the decoder buffers the only frame. -/
theorem c8_read_loop_then_trailer_witness :
    (transcode (env_ok [video_packet_buffered]) {} false {} {}).1 = true ∧
    ∀ e ∈ (transcode (env_ok [video_packet_buffered]) {} false {} {}).2.trace,
      e.is_eos = false :=
  ⟨by decide,
   (c8_read_loop_then_trailer (env_ok [video_packet_buffered]) {} false {} {} (by decide)).1⟩

/-! ## Timestamp rescaling -/

theorem nearest_half_away_neg (x d q : Int) (h : nearest_half_away x d q) :
    nearest_half_away (-x) d (-q) := by
  have e1 : -q * d - -x = -(q * d - x) := by ring
  have e2 : -q * d = -(q * d) := by ring
  unfold nearest_half_away at h ⊢
  rw [e1, e2, abs_neg, abs_neg, abs_neg]
  exact h

/-- For `x ≥ 0` the quotient `(x + d / 2) / d` is the only integer nearest to
`x / d` with halfway cases away from zero. -/
theorem nearest_half_away_unique (x d q : Int) (hx : 0 ≤ x) (hd : 0 < d)
    (h : nearest_half_away x d q) : (x + d / 2) / d = q := by
  obtain ⟨hnear, htie⟩ := h
  have hlo : (x + d / 2) / d * d ≤ x + d / 2 := Int.ediv_mul_le _ (by omega)
  have hhi : x + d / 2 < ((x + d / 2) / d + 1) * d := Int.lt_ediv_add_one_mul_self _ hd
  have hhi2 : x + d / 2 < (x + d / 2) / d * d + d := by
    have e : ((x + d / 2) / d + 1) * d = (x + d / 2) / d * d + d := by ring
    rw [e] at hhi
    exact hhi
  by_contra hne
  rcases lt_or_gt_of_ne hne with hgt | hlt
  · -- q is above the quotient
    have h1 : ((x + d / 2) / d + 1) * d ≤ q * d :=
      Int.mul_le_mul_of_nonneg_right (by omega) hd.le
    have e : ((x + d / 2) / d + 1) * d = (x + d / 2) / d * d + d := by ring
    rw [e] at h1
    have habs : |q * d - x| = q * d - x := abs_of_nonneg (by omega)
    rw [habs] at hnear
    omega
  · -- q is below the quotient
    have h1 : (q + 1) * d ≤ (x + d / 2) / d * d :=
      Int.mul_le_mul_of_nonneg_right (by omega) hd.le
    have e : (q + 1) * d = q * d + d := by ring
    rw [e] at h1
    have habs : |q * d - x| = x - q * d := by
      rw [abs_of_nonpos (by omega)]
      ring
    rw [habs] at hnear htie
    have htie2 : |x| < |q * d| := htie (by omega)
    rw [abs_of_nonneg hx] at htie2
    by_cases hq : 0 ≤ q
    · have hqd : 0 ≤ q * d := Int.mul_nonneg hq hd.le
      rw [abs_of_nonneg hqd] at htie2
      omega
    · have h2 : (q + 1) * d ≤ 0 * d := Int.mul_le_mul_of_nonneg_right (by omega) hd.le
      rw [e] at h2
      omega

theorem rescale_nonneg_of_nearest (x0 b c x q : Int) (hx : 0 ≤ x) (hc : 0 < c)
    (hxb : x0 * b = x) (h : nearest_half_away x c q) :
    rescale_nonneg x0 b c = if q ≤ INT64_MAX then q else INT64_MIN := by
  unfold rescale_nonneg
  simp only
  rw [hxb, nearest_half_away_unique x c q hx hc h]

/-- The arithmetic of the video pts conversion.  For a pts `t` that is a
64-bit value other than `AV_NOPTS_VALUE`, and a source time base `n/d` with
`n, d > 0`, `av_rescale_q_rnd` to the time base `1/90000` gives `INT64_MAX`
when `t = INT64_MAX`, and otherwise the integer nearest to `t * n * 90000 / d`,
halfway cases away from zero, whenever that integer is a 64-bit value. -/
theorem video_frame_pts_rescaled (t n d next_pts : Int) (in_stream : VideoStreamInfo)
    (params : TranscoderParams) (globalheader : Bool)
    (ht : t ≠ AV_NOPTS_VALUE) (hmin : INT64_MIN ≤ t) (hn : 0 < n) (hd : 0 < d) :
    (t = INT64_MAX →
      (video_frame_pts t { num := n, den := d }
        (video_encoder_settings in_stream params globalheader).time_base next_pts).1
        = INT64_MAX) ∧
    (t ≠ INT64_MAX → ∀ q : Int, nearest_half_away (t * n * 90000) d q →
      INT64_MIN ≤ q → q ≤ INT64_MAX →
      (video_frame_pts t { num := n, den := d }
        (video_encoder_settings in_stream params globalheader).time_base next_pts).1 = q) := by
  have hc : ¬ ((1 : Int) * d ≤ 0 ∨ n * 90000 < 0) := by omega
  have htmin : t ≠ INT64_MIN := ht
  have hpts : (video_frame_pts t { num := n, den := d }
      (video_encoder_settings in_stream params globalheader).time_base next_pts).1
      = av_rescale_rnd t (n * 90000) (1 * d) true := by
    unfold video_frame_pts
    rw [if_pos ht]
    rfl
  rw [hpts]
  unfold av_rescale_rnd
  rw [if_neg hc]
  constructor
  · intro hmax
    rw [if_pos ⟨rfl, Or.inr hmax⟩]
    exact hmax
  · intro hmax q hq hqmin hqmax
    have hpass : ¬ (true = true ∧ (t = INT64_MIN ∨ t = INT64_MAX)) := by tauto
    have hqmin2 : -9223372036854775808 ≤ q := hqmin
    have hqmax2 : q ≤ 9223372036854775807 := hqmax
    rw [if_neg hpass]
    by_cases hneg : t < 0
    · have hmaxt : max t (-INT64_MAX) = t := by
        apply max_eq_left
        have h1 : -9223372036854775808 ≤ t := hmin
        have h2 : t ≠ -9223372036854775808 := htmin
        show -9223372036854775807 ≤ t
        omega
      have hx : 0 ≤ -(t * n * 90000) := by
        have : 0 ≤ (-t) * (n * 90000) := Int.mul_nonneg (by omega) (by omega)
        have e : -(t * n * 90000) = (-t) * (n * 90000) := by ring
        rw [e]
        exact this
      have hres := rescale_nonneg_of_nearest (-t) (n * 90000) (1 * d) (-(t * n * 90000)) (-q)
        hx (by omega) (by ring) (by rw [one_mul]; exact nearest_half_away_neg _ _ _ hq)
      rw [if_pos hneg, hmaxt, hres]
      show wrap64 (-(if -q ≤ (9223372036854775807 : Int) then -q
        else -9223372036854775808)) = q
      unfold wrap64
      split_ifs <;> omega
    · have hx : 0 ≤ t * n * 90000 := by
        have : 0 ≤ t * (n * 90000) := Int.mul_nonneg (by omega) (by omega)
        have e : t * n * 90000 = t * (n * 90000) := by ring
        rw [e]
        exact this
      have hres := rescale_nonneg_of_nearest t (n * 90000) (1 * d) (t * n * 90000) q
        hx (by omega) (by ring) (by rw [one_mul]; exact hq)
      rw [if_neg hneg, hres, if_pos hqmax]

/-- C10 (evaluation at the failing input).  With no frame count reported, a
stream duration of 1000 and a guessed frame rate of 30/1 the estimate is
`(1000 * 30) / (1 * 1000000) = 0`; `total_frames` is still 0 after the first
video packet and is the divisor of the percentage, which IEEE arithmetic turns
into `+inf`, clamped to 100. -/
theorem c10_estimate_can_be_zero :
    estimate_total_frames 0 1000 { num := 30, den := 1 } = 0 ∧
    (report_progress (env_short []) (video_packet 0 0 100000000)
      { t := { progress_callback := true }, s := {}, trace := [] }).s.total_frames = 0 ∧
    (transcode (env_short [video_packet 0 0 100000000]) {} true {} {}).2.s.total_frames = 0 ∧
    progress_values (transcode (env_short [video_packet 0 0 100000000]) {} true {} {}).2.trace
      = [100, 100] := by
  decide!

/-! ## Frames without a timestamp -/

/-- Video: a frame without pts is handed the current `next_pts`, and the
counter advances by one. -/
theorem convert_pts_video_untimed (env : Env) (r : Run) :
    (convert_pts MediaKind.video env AV_NOPTS_VALUE r).1 = r.s.next_pts ∧
    (convert_pts MediaKind.video env AV_NOPTS_VALUE r).2.s.next_pts = r.s.next_pts + 1 := by
  simp [convert_pts, video_frame_pts]

/-- Audio: the pts handed to the encoder is the rescaled `frame->pts`, whatever
it is, and no state changes: there is no counter on the audio path. -/
theorem convert_pts_audio_stateless (env : Env) (pts : Int) (r : Run) :
    (convert_pts MediaKind.audio env pts r).1 =
      av_rescale_q pts env.audio.time_base
        ((r.t.audio_encoder_ctx.map (·.time_base)).getD { num := 0, den := 1 }) ∧
    (convert_pts MediaKind.audio env pts r).2 = r :=
  ⟨rfl, rfl⟩

/-- C11 (evaluation at the failing input).  Two audio frames without pts
(source and encoder time base 1/48000): `av_rescale_q` is applied to
`AV_NOPTS_VALUE` and both frames are handed `-INT64_MAX` to the audio encoder,
so the timestamps are not increasing and are not 0, 1.  The same two frames on
the video path are handed 0 and 1. -/
theorem c11_audio_untimed_frames_rescaled :
    av_rescale_q AV_NOPTS_VALUE { num := 1, den := 48000 } { num := 1, den := 48000 }
      = -9223372036854775807 ∧
    (transcode (env_ok two_untimed_audio_frames) {} false {} {}).1 = true ∧
    encoder_pts MediaKind.audio
        (transcode (env_ok two_untimed_audio_frames) {} false {} {}).2.trace
      = [-9223372036854775807, -9223372036854775807] ∧
    encoder_pts MediaKind.video
        (transcode (env_ok two_untimed_frames) {} false {} {}).2.trace
      = [0, 1] := by
  decide

/-! ## Decoded frames are handed to the encoder -/

theorem handsOver_of_quiet (Q : Int → Int → Prop) (l : List Event)
    (h : ∀ e ∈ l, e.delivers_video_frame = false) : HandsOver Q l := by
  intro pre post t heq
  have hmem : Event.receive_frame MediaKind.video (some t) ∈ l := by
    rw [heq]
    simp
  have := h _ hmem
  simp [Event.delivers_video_frame] at this

theorem handsOver_append (Q : Int → Int → Prop) (l1 l2 : List Event)
    (h1 : HandsOver Q l1) (h2 : HandsOver Q l2) : HandsOver Q (l1 ++ l2) := by
  intro pre post t heq
  rcases List.append_eq_append_iff.mp heq with ⟨a, hpre, hl2⟩ | ⟨c, hl1, hc⟩
  · exact h2 a post t hl2
  · cases c with
    | nil =>
      simp only [List.nil_append] at hc
      exact h2 [] post t (by simpa using hc.symm)
    | cons e c2 =>
      simp only [List.cons_append, List.cons.injEq] at hc
      obtain ⟨he, hpost⟩ := hc
      subst he
      obtain ⟨q, post2, hq, hQ⟩ := h1 pre c2 t hl1
      exact ⟨q, post2 ++ l2, by rw [hpost, hq]; rfl, hQ⟩

theorem handsOver_pair (Q : Int → Int → Prop) (t q : Int) (h : Q t q) :
    HandsOver Q [Event.receive_frame MediaKind.video (some t),
      Event.send_frame MediaKind.video (some q)] := by
  intro pre post t2 heq
  cases pre with
  | nil =>
    simp only [List.nil_append, List.cons.injEq, Event.receive_frame.injEq, Option.some.injEq,
      true_and] at heq
    obtain ⟨ht, hpost⟩ := heq
    subst ht
    exact ⟨q, [], hpost.symm, h⟩
  | cons e pre2 =>
    cases pre2 with
    | nil => simp at heq
    | cons e2 pre3 => simp at heq

theorem handsOver_emit (Q : Int → Int → Prop) (r : Run) (e : Event)
    (he : e.delivers_video_frame = false) (h : HandsOver Q r.trace) :
    HandsOver Q (r.emit e).trace :=
  handsOver_append Q r.trace [e] h (handsOver_of_quiet Q [e] (by simpa using he))

theorem handsOver_setError (Q : Int → Int → Prop) (r : Run) (msg : String)
    (h : HandsOver Q r.trace) : HandsOver Q (setError r msg).trace :=
  handsOver_append Q r.trace [Event.set_error msg] h
    (handsOver_of_quiet Q _ (by simp [Event.delivers_video_frame]))

theorem handsOver_of_extends (Q : Int → Int → Prop) (r1 r2 : Run)
    (hext : Extends (fun e => e.delivers_video_frame = false) r1 r2)
    (h : HandsOver Q r1.trace) : HandsOver Q r2.trace := by
  obtain ⟨es, he, hq⟩ := hext
  rw [he]
  exact handsOver_append Q _ _ h (handsOver_of_quiet Q es hq)

theorem drain_encoder_quiet (k : MediaKind) (l : List (Int × Int)) (r : Run) :
    Extends (fun e => e.delivers_video_frame = false) r (drain_encoder k l r).2 := by
  induction l generalizing r with
  | nil => exact extends_emit _ r _ rfl
  | cons a rest ih =>
    obtain ⟨recv, wr⟩ := a
    have h1 : Extends (fun e => e.delivers_video_frame = false) r
        (r.emit (Event.receive_packet k)) := extends_emit _ r _ rfl
    unfold drain_encoder
    simp only
    split_ifs
    · exact h1
    · exact h1.then_ext (extends_setError _ _ _ rfl)
    · exact (h1.then_ext (extends_emit _ _ (Event.write_frame _) rfl)).then_ext
        (extends_setError _ _ _ rfl)
    · exact (h1.then_ext (extends_emit _ _ (Event.write_frame _) rfl)).then_ext (ih _)

theorem video_encoder_time_base_of_inert (r1 r2 : Run) (h : Inert r1 r2) :
    video_encoder_time_base r2.t = video_encoder_time_base r1.t := by
  have h1 := congrArg Transcoder.video_encoder_ctx h.1
  have h2 : r2.t.video_encoder_ctx = r1.t.video_encoder_ctx := h1
  unfold video_encoder_time_base
  rw [h2]

theorem convert_pts_video_timed (env : Env) (t : Int) (r : Run) :
    timed_video_pts env (video_encoder_time_base r.t) t
      (convert_pts MediaKind.video env t r).1 := by
  intro ht
  simp [convert_pts, video_frame_pts, ht, video_encoder_time_base]

/-- The two calls made for a delivered frame of either kind. -/
theorem handsOver_frame_calls (env : Env) (k : MediaKind) (t : Int) (r : Run) :
    HandsOver (timed_video_pts env (video_encoder_time_base r.t))
      [Event.receive_frame k (some t), Event.send_frame k (some (convert_pts k env t r).1)] := by
  cases k with
  | video => exact handsOver_pair _ t _ (convert_pts_video_timed env t r)
  | audio => exact handsOver_of_quiet _ _ (by simp [Event.delivers_video_frame])

theorem convert_pts_trace (k : MediaKind) (env : Env) (t : Int) (r : Run) :
    (convert_pts k env t r).2.trace = r.trace := by
  cases k <;> rfl

theorem frame_loop_hands_over (env : Env) (k : MediaKind) (tb : AVRational)
    (l : List FrameScript) (r : Run) (htb : video_encoder_time_base r.t = tb)
    (h : HandsOver (timed_video_pts env tb) r.trace) :
    HandsOver (timed_video_pts env tb) (frame_loop k env l r).trace := by
  induction l generalizing r with
  | nil => exact handsOver_emit _ r _ (by cases k <;> rfl) h
  | cons f rest ih =>
    unfold frame_loop
    simp only
    by_cases hret : 0 ≤ f.receive_ret
    · -- a frame is delivered
      have hne : ¬ (f.receive_ret = AVERROR_EAGAIN ∨ f.receive_ret = AVERROR_EOF) := by
        unfold AVERROR_EAGAIN AVERROR_EOF
        omega
      have hnn : ¬ f.receive_ret < 0 := by omega
      rw [if_pos hret, if_neg hne, if_neg hnn]
      have hin : Inert r ((convert_pts k env f.pts
          (r.emit (Event.receive_frame k (some f.pts)))).2.emit (Event.send_frame k (some
            (convert_pts k env f.pts (r.emit (Event.receive_frame k (some f.pts)))).1))) :=
        ((inert_emit r (Event.receive_frame k (some f.pts)) rfl).then_inert
          (inert_convert_pts k env f.pts _)).then_inert (inert_emit _ _ rfl)
      have hpair : HandsOver (timed_video_pts env tb) ((convert_pts k env f.pts
          (r.emit (Event.receive_frame k (some f.pts)))).2.emit (Event.send_frame k (some
            (convert_pts k env f.pts (r.emit (Event.receive_frame k (some f.pts)))).1))).trace := by
        have hcalls := handsOver_frame_calls env k f.pts
          (r.emit (Event.receive_frame k (some f.pts)))
        have htb2 : video_encoder_time_base (r.emit (Event.receive_frame k (some f.pts))).t = tb :=
          htb
        rw [htb2] at hcalls
        have htr : ((convert_pts k env f.pts
            (r.emit (Event.receive_frame k (some f.pts)))).2.emit (Event.send_frame k (some
              (convert_pts k env f.pts (r.emit (Event.receive_frame k (some f.pts)))).1))).trace
            = r.trace ++ [Event.receive_frame k (some f.pts), Event.send_frame k (some
              (convert_pts k env f.pts (r.emit (Event.receive_frame k (some f.pts)))).1)] := by
          show (convert_pts k env f.pts (r.emit (Event.receive_frame k (some f.pts)))).2.trace
            ++ [_] = _
          rw [convert_pts_trace]
          show (r.trace ++ [_]) ++ [_] = _
          simp
        rw [htr]
        exact handsOver_append _ _ _ h hcalls
      split_ifs
      · exact handsOver_setError _ _ _ hpair
      · refine ih _ ?_ ?_
        · rw [video_encoder_time_base_of_inert r _
            (hin.then_inert (inert_drain_encoder k f.packets _))]
          exact htb
        · exact handsOver_of_extends _ _ _ (drain_encoder_quiet k f.packets _) hpair
      · exact handsOver_of_extends _ _ _ (drain_encoder_quiet k f.packets _) hpair
    · -- no frame is delivered
      rw [if_neg hret]
      have hq : HandsOver (timed_video_pts env tb) (r.emit (Event.receive_frame k none)).trace :=
        handsOver_emit _ r _ (by cases k <;> rfl) h
      split_ifs
      all_goals first
        | exact hq
        | exact handsOver_setError _ _ _ hq
        | (exfalso; omega)

theorem report_progress_quiet (env : Env) (p : ReadScript) (r : Run) :
    Extends (fun e => e.delivers_video_frame = false) r (report_progress env p r) := by
  unfold report_progress
  simp only
  split_ifs
  · split
    · split_ifs
      · exact ⟨[Event.progress _], rfl, by simp [Event.delivers_video_frame]⟩
      · exact ⟨[], by simp, by simp⟩
    · exact ⟨[], by simp, by simp⟩
  · exact ⟨[], by simp, by simp⟩
  · exact ⟨[], by simp, by simp⟩

theorem read_loop_hands_over (env : Env) (tb : AVRational) (ps : List ReadScript) (r : Run)
    (htb : video_encoder_time_base r.t = tb)
    (h : HandsOver (timed_video_pts env tb) r.trace) :
    HandsOver (timed_video_pts env tb) (read_loop env ps r).trace := by
  induction ps generalizing r with
  | nil => exact handsOver_emit _ r _ rfl h
  | cons p rest ih =>
    have h1 : HandsOver (timed_video_pts env tb) (r.emit (Event.read_frame p.read_ret)).trace :=
      handsOver_emit _ r _ rfl h
    have hv : HandsOver (timed_video_pts env tb) (frame_loop MediaKind.video env p.frames
        ((r.emit (Event.read_frame p.read_ret)).emit
          (Event.send_packet MediaKind.video false))).trace :=
      frame_loop_hands_over env _ tb p.frames _ htb (handsOver_emit _ _ _ rfl h1)
    have ha : HandsOver (timed_video_pts env tb) (frame_loop MediaKind.audio env p.frames
        ((r.emit (Event.read_frame p.read_ret)).emit
          (Event.send_packet MediaKind.audio false))).trace :=
      frame_loop_hands_over env _ tb p.frames _ htb (handsOver_emit _ _ _ rfl h1)
    have hvt := video_encoder_time_base_of_inert _ _ (inert_frame_loop MediaKind.video env p.frames
      ((r.emit (Event.read_frame p.read_ret)).emit (Event.send_packet MediaKind.video false)))
    have hat := video_encoder_time_base_of_inert _ _ (inert_frame_loop MediaKind.audio env p.frames
      ((r.emit (Event.read_frame p.read_ret)).emit (Event.send_packet MediaKind.audio false)))
    unfold read_loop
    simp only
    split_ifs
    · exact h1
    · exact handsOver_setError _ _ _ (handsOver_emit _ _ _ rfl h1)
    · refine ih _ ?_ ?_
      · rw [report_progress_object, hvt]
        exact htb
      · exact handsOver_of_extends _ _ _ (report_progress_quiet env p _) hv
    · exact handsOver_setError _ _ _ (handsOver_emit _ _ _ rfl h1)
    · refine ih _ ?_ ha
      rw [hat]
      exact htb
    · exact ih _ htb h1

theorem setup_step_quiet (e : Event) (h : e.is_setup_step = true) :
    e.delivers_video_frame = false := by
  cases e <;> simp_all [Event.is_setup_step, Event.delivers_video_frame]

theorem final_calls_quiet (progress_cb : Bool) :
    ∀ e ∈ final_calls progress_cb, e.delivers_video_frame = false := by
  intro e he
  cases progress_cb <;> simp [final_calls] at he <;> rcases he with rfl | rfl <;> rfl

/-- A failing `transcode` makes setup calls only. -/
theorem transcode_failure_trace (env : Env) (params : TranscoderParams) (progress_cb : Bool)
    (t : Transcoder) (s : Statics) (h : (transcode env params progress_cb t s).1 = false) :
    ∀ e ∈ (transcode env params progress_cb t s).2.trace, e.is_setup_step = true := by
  have a1 := setupStep_open_input env
    { (cleanup { t := t, s := s, trace := [] }) with
      t := { (cleanup { t := t, s := s, trace := [] }).t with
        progress_callback := progress_cb, current_params := params } }
  have a2 := setupStep_open_output env
    { (open_input env
        { (cleanup { t := t, s := s, trace := [] }) with
          t := { (cleanup { t := t, s := s, trace := [] }).t with
            progress_callback := progress_cb, current_params := params } }).2 with
      t := { (open_input env
        { (cleanup { t := t, s := s, trace := [] }) with
          t := { (cleanup { t := t, s := s, trace := [] }).t with
            progress_callback := progress_cb, current_params := params } }).2.t with
        total_duration := env.duration } }
  have a3 := setupStep_init_codec_contexts env (open_output env
    { (open_input env
        { (cleanup { t := t, s := s, trace := [] }) with
          t := { (cleanup { t := t, s := s, trace := [] }).t with
            progress_callback := progress_cb, current_params := params } }).2 with
      t := { (open_input env
        { (cleanup { t := t, s := s, trace := [] }) with
          t := { (cleanup { t := t, s := s, trace := [] }).t with
            progress_callback := progress_cb, current_params := params } }).2.t with
        total_duration := env.duration } }).2
  have b1 : ∀ e ∈ (open_input env
        { (cleanup { t := t, s := s, trace := [] }) with
          t := { (cleanup { t := t, s := s, trace := [] }).t with
            progress_callback := progress_cb, current_params := params } }).2.trace,
      e.is_setup_step = true := by
    intro e he
    rcases a1.2.2 e he with h1 | h1
    · exact absurd h1 (by simp [cleanup])
    · exact h1
  have b2 : ∀ e ∈ (open_output env
      { (open_input env
          { (cleanup { t := t, s := s, trace := [] }) with
            t := { (cleanup { t := t, s := s, trace := [] }).t with
              progress_callback := progress_cb, current_params := params } }).2 with
        t := { (open_input env
          { (cleanup { t := t, s := s, trace := [] }) with
            t := { (cleanup { t := t, s := s, trace := [] }).t with
              progress_callback := progress_cb, current_params := params } }).2.t with
          total_duration := env.duration } }).2.trace, e.is_setup_step = true := by
    intro e he
    rcases a2.2.2 e he with h1 | h1
    · exact b1 e h1
    · exact h1
  have b3 : ∀ e ∈ (init_codec_contexts env (open_output env
      { (open_input env
          { (cleanup { t := t, s := s, trace := [] }) with
            t := { (cleanup { t := t, s := s, trace := [] }).t with
              progress_callback := progress_cb, current_params := params } }).2 with
        t := { (open_input env
          { (cleanup { t := t, s := s, trace := [] }) with
            t := { (cleanup { t := t, s := s, trace := [] }).t with
              progress_callback := progress_cb, current_params := params } }).2.t with
          total_duration := env.duration } }).2).2.trace, e.is_setup_step = true := by
    intro e he
    rcases a3.2.2 e he with h1 | h1
    · exact b2 e h1
    · exact h1
  unfold transcode at h ⊢
  simp only at h ⊢
  split_ifs at h ⊢
  · exact b1
  · exact b2
  · exact b3
  · intro e he
    have he2 : e ∈ (init_codec_contexts env (open_output env
      { (open_input env
          { (cleanup { t := t, s := s, trace := [] }) with
            t := { (cleanup { t := t, s := s, trace := [] }).t with
              progress_callback := progress_cb, current_params := params } }).2 with
        t := { (open_input env
          { (cleanup { t := t, s := s, trace := [] }) with
            t := { (cleanup { t := t, s := s, trace := [] }).t with
              progress_callback := progress_cb, current_params := params } }).2.t with
          total_duration := env.duration } }).2).2.trace ∨ e = Event.write_header ∨
        e = Event.set_error ("无法写入输出文件头: " ++ env.av_strerror env.write_header_ret) := by
      simpa [setError, Run.emit, or_assoc] using he
    rcases he2 with h1 | h1 | h1
    · exact b3 e h1
    · rw [h1]; rfl
    · rw [h1]; rfl
  · rename_i hpf
    exact absurd hpf (by simp [process_frames])

/-- In every run of `transcode`, each frame the video decoder delivers is
handed to the video encoder by the next call, and when it carries a timestamp
its pts is rescaled from the stream's time base to `1/90000`. -/
theorem transcode_hands_over (env : Env) (params : TranscoderParams) (progress_cb : Bool)
    (t : Transcoder) (s : Statics) :
    HandsOver (timed_video_pts env { num := 1, den := 90000 })
      (transcode env params progress_cb t s).2.trace := by
  by_cases hok : (transcode env params progress_cb t s).1 = true
  · obtain ⟨r0, _, hcb, hsetup, htb, hshape⟩ :=
      transcode_success_shape env params progress_cb t s hok
    have h0 : HandsOver (timed_video_pts env { num := 1, den := 90000 }) r0.trace :=
      handsOver_of_quiet _ _ (fun e he => setup_step_quiet e (hsetup e he))
    have hloop := read_loop_hands_over env _ env.packets r0 htb h0
    have hcb2 : (read_loop env env.packets r0).t.progress_callback = progress_cb := by
      have h1 := congrArg Transcoder.progress_callback (read_loop_object env env.packets r0)
      exact h1.trans hcb
    have htrace : (transcode env params progress_cb t s).2.trace =
        (read_loop env env.packets r0).trace ++ final_calls progress_cb := by
      rw [hshape]
      cases progress_cb <;> simp [cleanup, process_frames, hcb2, Run.emit, final_calls]
    rw [htrace]
    exact handsOver_append _ _ _ hloop (handsOver_of_quiet _ _ (final_calls_quiet progress_cb))
  · exact handsOver_of_quiet _ _ (fun e he => setup_step_quiet e
      (transcode_failure_trace env params progress_cb t s (by simpa using hok) e he))

/-- C9 (as amended: ties away from zero, representable results).  In every run
of `transcode` on a video stream with time base `n/d` (`n, d > 0`), whenever
the video decoder delivers a frame whose pts is a 64-bit value other than
`AV_NOPTS_VALUE`, the next call hands the frame to the video encoder, with pts
`INT64_MAX` when the frame's pts is `INT64_MAX`, and otherwise with the integer
nearest to `pts * n * 90000 / d`, halfway cases away from zero, whenever that
integer is a 64-bit value. -/
theorem c9_video_pts_rescaled (env : Env) (params : TranscoderParams) (progress_cb : Bool)
    (t : Transcoder) (s : Statics) (n d : Int)
    (htb : env.video.time_base = { num := n, den := d }) (hn : 0 < n) (hd : 0 < d) :
    ∀ pre post pts,
      (transcode env params progress_cb t s).2.trace =
        pre ++ Event.receive_frame MediaKind.video (some pts) :: post →
      pts ≠ AV_NOPTS_VALUE → INT64_MIN ≤ pts →
      ∃ q post2, post = Event.send_frame MediaKind.video (some q) :: post2 ∧
        (pts = INT64_MAX → q = INT64_MAX) ∧
        (pts ≠ INT64_MAX → ∀ q2 : Int, nearest_half_away (pts * n * 90000) d q2 →
          INT64_MIN ≤ q2 → q2 ≤ INT64_MAX → q = q2) := by
  intro pre post pts htrace hpts hmin
  obtain ⟨q, post2, hpost, hq⟩ := transcode_hands_over env params progress_cb t s pre post pts htrace
  have hq2 : q = av_rescale_q_rnd pts { num := n, den := d } { num := 1, den := 90000 } true := by
    rw [← htb]
    exact hq hpts
  have harith := video_frame_pts_rescaled pts n d 0 env.video params env.globalheader hpts hmin
    hn hd
  have hconv : (video_frame_pts pts { num := n, den := d }
      (video_encoder_settings env.video params env.globalheader).time_base 0).1 = q := by
    rw [hq2]
    unfold video_frame_pts
    rw [if_pos hpts]
    rfl
  rw [hconv] at harith
  exact ⟨q, post2, hpost, harith.1, harith.2⟩

/-- C9 applied to a run with one video frame of pts 1 in time base 1/180000,
where `1 * 90000 / 180000` is exactly one half: the call after the delivery of
the frame hands pts 1 to the encoder. -/
theorem c9_video_pts_rescaled_witness :
    ∃ q post2,
      [Event.send_frame MediaKind.video (some 1), Event.receive_packet MediaKind.video,
        Event.write_frame 0, Event.receive_packet MediaKind.video,
        Event.read_frame AVERROR_EOF, Event.write_trailer]
        = Event.send_frame MediaKind.video (some q) :: post2 ∧ q = 1 := by
  obtain ⟨q, post2, h1, _, h3⟩ := c9_video_pts_rescaled (env_ok [video_packet 0 1 0]) {} false
    {} {} 1 180000 rfl (by decide) (by decide)
    [Event.open_input, Event.find_stream_info, Event.alloc_output, Event.avio_open,
      Event.write_header, Event.read_frame 0, Event.send_packet MediaKind.video false]
    [Event.send_frame MediaKind.video (some 1), Event.receive_packet MediaKind.video,
      Event.write_frame 0, Event.receive_packet MediaKind.video,
      Event.read_frame AVERROR_EOF, Event.write_trailer]
    1 (by decide) (by decide) (by decide)
  exact ⟨q, post2, h1, h3 (by decide) 1 (by simp [nearest_half_away]) (by decide) (by decide)⟩

/-- C9 as stated fails in two ways.  On ties: a frame with pts 1 in time base
1/180000 is one half in units of 1/90000; the encoder is handed 1, while
rounding half to even gives 0.  On results outside the 64-bit range: a frame
with pts `2 ^ 62` in time base 1/1 is handed to the encoder with pts
`INT64_MIN`, while the rounded value is `2 ^ 62 * 90000`. -/
theorem c9_half_even_counterexample :
    ((env_ok [video_packet 0 1 0]).video.time_base = { num := 1, den := 180000 } ∧
      encoder_pts MediaKind.video
        (transcode (env_ok [video_packet 0 1 0]) {} false {} {}).2.trace = [1] ∧
      spec_video_pts 1 1 180000 = 0) ∧
    (encoder_pts MediaKind.video
        (transcode (env_time_base { num := 1, den := 1 }
          [video_packet 0 4611686018427387904 0]) {} false {} {}).2.trace = [INT64_MIN] ∧
      spec_video_pts 4611686018427387904 1 1 = 415051741658464911360000) := by
  decide

/-- The progress block in `float` arithmetic, at two inputs.  One frame of
three gives `33.3333321f`.  With 1000 frames reported and four packets read
100 ms apart the callback receives `0.1f`, `0.2f`, `0.3f` and the final 100:
the fourth packet is not reported, since `0.4f - 0.3f < 0.1f`. -/
theorem progress_float_examples :
    clamped_progress 1 3 = some (8738133 / 262144) ∧
    progress_values (transcode env_thousand_frames {} true {} {}).2.trace
      = [13421773 / 134217728, 13421773 / 67108864, 5033165 / 16777216, 100] := by
  decide!

end Transcode
